import Mathlib

/-!
# Task queue and cache consistency core: a verification development

Shallow embedding of the asynchronous task delivery and cache-consistency
code of the service:

* `src/config/rabbitmq.js`         (`initRabbitMQ`, `sendToQueue`, `module.exports`)
* `src/workers/emailWorker.js`     (`startEmailWorker` and its consume callback)
* `src/controllers/productController.js` (`createProduct`, `getProducts`,
  `updateProduct`, `deleteProduct`)
* `server.js`                      (process start-up)

The handlers are asynchronous JavaScript functions.  Each one is embedded as
a pure function from the state it reads and the outcomes of the external
calls it awaits to the list of effects it performs, the state it leaves and
the way it settles.

The JavaScript built-ins the code calls (`JSON.stringify`, `JSON.parse`,
`Buffer.from`, `Buffer.prototype.toString`, property access, template
literals) are embedded in the first part of the file, following ECMA-262 and
the UTF-8 decoder of the WHATWG Encoding standard.  Their scope:

* a string is a sequence of Unicode scalar values (a string with an unpaired
  surrogate is not represented);
* a number is the decimal `Number::toString` prints for it; rounding a longer
  literal to the nearest IEEE double and the sign of zero are not
  represented;
* an object lists its properties in insertion order (the reordering of
  integer-like keys is not represented).

The cache store behind `redisClient` (`src/config/redis.js`) is not among the
sources; it is modelled from section 4.4 of the spec.
-/

set_option autoImplicit false

/-! ## Part 1. JavaScript values and built-ins -/

/-- What a client library (amqplib, the redis client) throws or rejects
with. -/
structure LibraryError where
  name : String
  message : String
deriving DecidableEq, Repr

/-- Exceptions.  `error m` is `new Error(m)` created by the code of this
repository; `typeError` and `syntaxErr` are raised by the language itself;
`library e` is raised inside a client library. -/
inductive JSError where
  | error (message : String)
  | typeError (message : String)
  | syntaxErr
  | library (e : LibraryError)
deriving DecidableEq, Repr

/-- A finite number, held as the decimal that `Number::toString` prints:
`digits` are the significant digits `s` (most significant first, neither
leading nor trailing zero), `exp` is the `n` of ECMA-262 (the value is
`0.d₁d₂…dₖ × 10ⁿ`).  Zero is the empty digit list.  Rounding of longer
literals to an IEEE double and the sign of zero are not represented. -/
structure JSNumber where
  neg : Bool
  digits : List Nat
  exp : Int
deriving DecidableEq, Repr

/-- The values of the JSON data model. An object lists its own properties
in insertion order. -/
inductive JSON where
  | null
  | bool (b : Bool)
  | num (n : JSNumber)
  | str (s : String)
  | arr (elems : List JSON)
  | obj (members : List (String × JSON))
deriving Repr

mutual
/-- Equality of JSON values is decidable. -/
def JSON.decEq : (a b : JSON) → Decidable (a = b)
  | .null, .null => isTrue rfl
  | .null, .bool _ => isFalse nofun
  | .null, .num _ => isFalse nofun
  | .null, .str _ => isFalse nofun
  | .null, .arr _ => isFalse nofun
  | .null, .obj _ => isFalse nofun
  | .bool _, .null => isFalse nofun
  | .bool x, .bool y =>
    if h : x = y then isTrue (congrArg JSON.bool h)
    else isFalse (fun e => h (JSON.bool.inj e))
  | .bool _, .num _ => isFalse nofun
  | .bool _, .str _ => isFalse nofun
  | .bool _, .arr _ => isFalse nofun
  | .bool _, .obj _ => isFalse nofun
  | .num _, .null => isFalse nofun
  | .num _, .bool _ => isFalse nofun
  | .num x, .num y =>
    if h : x = y then isTrue (congrArg JSON.num h)
    else isFalse (fun e => h (JSON.num.inj e))
  | .num _, .str _ => isFalse nofun
  | .num _, .arr _ => isFalse nofun
  | .num _, .obj _ => isFalse nofun
  | .str _, .null => isFalse nofun
  | .str _, .bool _ => isFalse nofun
  | .str _, .num _ => isFalse nofun
  | .str x, .str y =>
    if h : x = y then isTrue (congrArg JSON.str h)
    else isFalse (fun e => h (JSON.str.inj e))
  | .str _, .arr _ => isFalse nofun
  | .str _, .obj _ => isFalse nofun
  | .arr _, .null => isFalse nofun
  | .arr _, .bool _ => isFalse nofun
  | .arr _, .num _ => isFalse nofun
  | .arr _, .str _ => isFalse nofun
  | .arr xs, .arr ys =>
    match JSON.decEqElems xs ys with
    | isTrue h => isTrue (congrArg JSON.arr h)
    | isFalse h => isFalse (fun e => h (JSON.arr.inj e))
  | .arr _, .obj _ => isFalse nofun
  | .obj _, .null => isFalse nofun
  | .obj _, .bool _ => isFalse nofun
  | .obj _, .num _ => isFalse nofun
  | .obj _, .str _ => isFalse nofun
  | .obj _, .arr _ => isFalse nofun
  | .obj xs, .obj ys =>
    match JSON.decEqMembers xs ys with
    | isTrue h => isTrue (congrArg JSON.obj h)
    | isFalse h => isFalse (fun e => h (JSON.obj.inj e))
/-- Equality of lists of JSON values is decidable. -/
def JSON.decEqElems : (a b : List JSON) → Decidable (a = b)
  | [], [] => isTrue rfl
  | [], _ :: _ => isFalse nofun
  | _ :: _, [] => isFalse nofun
  | x :: xs, y :: ys =>
    match JSON.decEq x y, JSON.decEqElems xs ys with
    | isTrue h1, isTrue h2 => isTrue (by rw [h1, h2])
    | isFalse h1, _ => isFalse (fun e => h1 (List.cons.inj e).1)
    | _, isFalse h2 => isFalse (fun e => h2 (List.cons.inj e).2)
/-- Equality of member lists is decidable. -/
def JSON.decEqMembers : (a b : List (String × JSON)) → Decidable (a = b)
  | [], [] => isTrue rfl
  | [], _ :: _ => isFalse nofun
  | _ :: _, [] => isFalse nofun
  | (k, x) :: xs, (l, y) :: ys =>
    if hk : k = l then
      match JSON.decEq x y, JSON.decEqMembers xs ys with
      | isTrue h1, isTrue h2 => isTrue (by rw [hk, h1, h2])
      | isFalse h1, _ => isFalse (fun e => h1 (Prod.mk.inj (List.cons.inj e).1).2)
      | _, isFalse h2 => isFalse (fun e => h2 (List.cons.inj e).2)
    else isFalse (fun e => hk (Prod.mk.inj (List.cons.inj e).1).1)
end

instance : DecidableEq JSON := JSON.decEq

instance instDecidableEqExcept {ε α : Type} [DecidableEq ε] [DecidableEq α] :
    DecidableEq (Except ε α)
  | .ok a, .ok b => if h : a = b then isTrue (congrArg Except.ok h) else isFalse (fun e => h (Except.ok.inj e))
  | .error a, .error b =>
    if h : a = b then isTrue (congrArg Except.error h) else isFalse (fun e => h (Except.error.inj e))
  | .ok _, .error _ => isFalse nofun
  | .error _, .ok _ => isFalse nofun


namespace JSNumber

/-- The number zero. -/
def zero : JSNumber := ⟨false, [], 0⟩

/-- Drop leading zeros, moving the decimal point along. -/
def stripLeading : List Nat → Int → List Nat × Int
  | [], n => ([], n)
  | d :: ds, n => if d = 0 then stripLeading ds (n - 1) else (d :: ds, n)

/-- Drop trailing zeros. -/
def stripTrailing (ds : List Nat) : List Nat :=
  (ds.reverse.dropWhile (fun d => d == 0)).reverse

/-- The number with sign `neg` and value `0.ds × 10ⁿ`, in normal form. -/
def normalize (neg : Bool) (ds : List Nat) (n : Int) : JSNumber :=
  let p := stripLeading ds n
  let ds2 := stripTrailing p.1
  if ds2 = [] then zero else ⟨neg, ds2, p.2⟩

/-- Normal form: digits below ten, no leading or trailing zero, and a
single representation of zero. -/
def WF (x : JSNumber) : Prop :=
  (∀ d ∈ x.digits, d < 10) ∧
  (x.digits = [] → x.neg = false ∧ x.exp = 0) ∧
  x.digits.head? ≠ some 0 ∧
  x.digits.getLast? ≠ some 0

instance (x : JSNumber) : Decidable x.WF := by
  unfold WF
  infer_instance

end JSNumber

/-! ### Characters and digits -/

/-- The character of a decimal digit. -/
def digitChar (d : Nat) : Char := Char.ofNat (48 + d)

/-- The value of a decimal digit character. -/
def digitVal (c : Char) : Option Nat :=
  if 48 ≤ c.toNat ∧ c.toNat ≤ 57 then some (c.toNat - 48) else none

/-- The character of a hexadecimal digit, lower case as `QuoteJSONString`
prints it. -/
def hexChar (d : Nat) : Char :=
  if d < 10 then Char.ofNat (48 + d) else Char.ofNat (87 + d)

/-- The value of a hexadecimal digit character, either case. -/
def hexVal (c : Char) : Option Nat :=
  if 48 ≤ c.toNat ∧ c.toNat ≤ 57 then some (c.toNat - 48)
  else if 97 ≤ c.toNat ∧ c.toNat ≤ 102 then some (c.toNat - 87)
  else if 65 ≤ c.toNat ∧ c.toNat ≤ 70 then some (c.toNat - 55)
  else none

/-- Decimal digits of a natural number, most significant first; `fuel`
bounds the number of digits. -/
def natDigitsAux : Nat → Nat → List Nat
  | 0, _ => []
  | fuel + 1, n => if n < 10 then [n] else natDigitsAux fuel (n / 10) ++ [n % 10]

/-- Decimal digits of a natural number, most significant first. -/
def natDigits (n : Nat) : List Nat := natDigitsAux (n + 1) n

/-- The natural number written by a list of decimal digits. -/
def decimalValue (ds : List Nat) : Nat := ds.foldl (fun acc d => acc * 10 + d) 0

/-- The longest prefix of decimal digits, and what follows it. -/
def takeDigits : List Char → List Nat × List Char
  | [] => ([], [])
  | c :: cs =>
    match digitVal c with
    | some d => let r := takeDigits cs; (d :: r.1, r.2)
    | none => ([], c :: cs)

/-! ### `JSON.stringify` -/

/-- The text of a positive finite number with significant digits `digits`
and exponent `n`: steps 5 to 10 of `Number::toString` with radix 10
(ECMA-262 6.1.6.1.20), `k` being the number of digits. -/
def unsignedText (digits : List Nat) (n : Int) : List Char :=
  let k : Int := digits.length
  let ds := digits.map digitChar
  if k ≤ n ∧ n ≤ 21 then ds ++ List.replicate (n - k).toNat '0'
  else if 0 < n ∧ n ≤ 21 then ds.take n.toNat ++ '.' :: ds.drop n.toNat
  else if -6 < n ∧ n ≤ 0 then '0' :: '.' :: (List.replicate (-n).toNat '0' ++ ds)
  else
    match ds with
    | [] => []
    | [d] =>
      d :: 'e' :: (if n - 1 < 0 then '-' else '+') :: (natDigits (n - 1).natAbs).map digitChar
    | d :: rest =>
      d :: '.' :: (rest ++ 'e' :: (if n - 1 < 0 then '-' else '+') ::
        (natDigits (n - 1).natAbs).map digitChar)

/-- The text of a finite number: `Number::toString` with radix 10. -/
def numToString (x : JSNumber) : List Char :=
  if x.digits = [] then ['0']
  else (if x.neg then ['-'] else []) ++ unsignedText x.digits x.exp

/-- Four hexadecimal digits of a code unit. -/
def hex4 (n : Nat) : List Char :=
  [hexChar (n / 4096 % 16), hexChar (n / 256 % 16), hexChar (n / 16 % 16), hexChar (n % 16)]

/-- One character of a string as `QuoteJSONString` writes it
(ECMA-262 25.5.2.3). -/
def quoteChar (c : Char) : List Char :=
  if c.toNat = 34 then ['\\', '"']
  else if c.toNat = 92 then ['\\', '\\']
  else if c.toNat = 8 then ['\\', 'b']
  else if c.toNat = 9 then ['\\', 't']
  else if c.toNat = 10 then ['\\', 'n']
  else if c.toNat = 12 then ['\\', 'f']
  else if c.toNat = 13 then ['\\', 'r']
  else if c.toNat < 32 then '\\' :: 'u' :: hex4 c.toNat
  else [c]

/-- The quoted form of a string: `QuoteJSONString`. -/
def quoteString (s : List Char) : List Char :=
  '"' :: (s.flatMap quoteChar ++ ['"'])

mutual
/-- The text of a value: `SerializeJSONProperty` without indentation. -/
def serialize : JSON → List Char
  | .null => ['n', 'u', 'l', 'l']
  | .bool true => ['t', 'r', 'u', 'e']
  | .bool false => ['f', 'a', 'l', 's', 'e']
  | .num n => numToString n
  | .str s => quoteString s.data
  | .arr [] => ['[', ']']
  | .arr (v :: vs) => '[' :: (serialize v ++ serializeElems vs)
  | .obj [] => ['{', '}']
  | .obj ((k, v) :: ms) =>
    '{' :: (quoteString k.data ++ ':' :: (serialize v ++ serializeMembers ms))
/-- The remaining elements of an array, each after a comma, and the closing
bracket. -/
def serializeElems : List JSON → List Char
  | [] => [']']
  | v :: vs => ',' :: (serialize v ++ serializeElems vs)
/-- The remaining members of an object, each after a comma, and the closing
brace. -/
def serializeMembers : List (String × JSON) → List Char
  | [] => ['}']
  | (k, v) :: ms => ',' :: (quoteString k.data ++ ':' :: (serialize v ++ serializeMembers ms))
end

/-- `JSON.stringify(value)` on a value of the JSON data model. -/
def JSON.stringify (v : JSON) : String := String.mk (serialize v)

/-! ### `JSON.parse` -/

/-- JSON white space. -/
def isWs (c : Char) : Bool :=
  c.toNat = 32 || c.toNat = 9 || c.toNat = 10 || c.toNat = 13

/-- Skip white space. -/
def skipWs : List Char → List Char
  | [] => []
  | c :: cs => if isWs c then skipWs cs else c :: cs

/-- The code unit written by four hexadecimal digits. -/
def hexUnit (a b c d : Char) : Option Nat :=
  match hexVal a, hexVal b, hexVal c, hexVal d with
  | some x, some y, some z, some w => some (((x * 16 + y) * 16 + z) * 16 + w)
  | _, _, _, _ => none

/-- The replacement character U+FFFD. -/
def replacementChar : Char := Char.ofNat 0xFFFD

/-- Put a character in front of a parsed string body. -/
def consChar (c : Char) : Option (List Char × List Char) → Option (List Char × List Char)
  | some (s, rest) => some (c :: s, rest)
  | none => none

/-- Emit U+FFFD for a pending high surrogate that found no partner. -/
def flushSurrogate (pending : Option Nat) (res : Option (List Char × List Char)) :
    Option (List Char × List Char) :=
  match pending with
  | some _ => consChar replacementChar res
  | none => res

/-- The body of a string literal, after its opening quote: the characters up
to the closing quote, and what follows it.  `pending` is the high surrogate
of a `\u` escape just read: with the low surrogate of a `\u` escape right
after it, it makes one character.  An unpaired surrogate escape, which a
sequence of Unicode scalar values cannot hold, is read as U+FFFD. -/
def parseStringBody (pending : Option Nat) : List Char → Option (List Char × List Char)
  | [] => none
  | c :: rest =>
    if c.toNat = 34 then flushSurrogate pending (some ([], rest))
    else if c.toNat = 92 then
      match rest with
      | [] => none
      | e :: r =>
        if e.toNat = 34 then flushSurrogate pending (consChar '"' (parseStringBody none r))
        else if e.toNat = 92 then flushSurrogate pending (consChar '\\' (parseStringBody none r))
        else if e.toNat = 47 then flushSurrogate pending (consChar '/' (parseStringBody none r))
        else if e.toNat = 98 then
          flushSurrogate pending (consChar (Char.ofNat 8) (parseStringBody none r))
        else if e.toNat = 102 then
          flushSurrogate pending (consChar (Char.ofNat 12) (parseStringBody none r))
        else if e.toNat = 110 then
          flushSurrogate pending (consChar (Char.ofNat 10) (parseStringBody none r))
        else if e.toNat = 114 then
          flushSurrogate pending (consChar (Char.ofNat 13) (parseStringBody none r))
        else if e.toNat = 116 then
          flushSurrogate pending (consChar (Char.ofNat 9) (parseStringBody none r))
        else if e.toNat = 117 then
          match r with
          | h1 :: h2 :: h3 :: h4 :: r4 =>
            match hexUnit h1 h2 h3 h4 with
            | none => none
            | some u =>
              if 0xDC00 ≤ u ∧ u ≤ 0xDFFF then
                match pending with
                | some h =>
                  consChar (Char.ofNat (0x10000 + (h - 0xD800) * 0x400 + (u - 0xDC00)))
                    (parseStringBody none r4)
                | none => consChar replacementChar (parseStringBody none r4)
              else if 0xD800 ≤ u ∧ u ≤ 0xDBFF then
                flushSurrogate pending (parseStringBody (some u) r4)
              else flushSurrogate pending (consChar (Char.ofNat u) (parseStringBody none r4))
          | _ => none
        else none
    else if c.toNat < 32 then none
    else flushSurrogate pending (consChar c (parseStringBody none rest))

/-- The fraction of a number literal: a point and at least one digit, or
nothing. -/
def parseFraction : List Char → Option (List Nat × List Char)
  | [] => some ([], [])
  | c :: cs =>
    if c.toNat = 46 then
      match takeDigits cs with
      | ([], _) => none
      | (ds, rest) => some (ds, rest)
    else some ([], c :: cs)

/-- The digits of an exponent: at least one. -/
def parseExponentDigits (neg : Bool) (cs : List Char) : Option (Int × List Char) :=
  match takeDigits cs with
  | ([], _) => none
  | (ds, rest) =>
    some (if neg then -(decimalValue ds : Int) else (decimalValue ds : Int), rest)

/-- The exponent part of a number literal: `e` or `E`, an optional sign and
at least one digit, or nothing. -/
def parseExponent : List Char → Option (Int × List Char)
  | [] => some (0, [])
  | c :: cs =>
    if c.toNat = 101 ∨ c.toNat = 69 then
      match cs with
      | [] => none
      | s :: r =>
        if s.toNat = 45 then parseExponentDigits true r
        else if s.toNat = 43 then parseExponentDigits false r
        else parseExponentDigits false (s :: r)
    else some (0, c :: cs)

/-- A number literal without its sign: an integer part without a
superfluous leading zero, an optional fraction and an optional exponent. -/
def parseUnsigned (neg : Bool) (cs : List Char) : Option (JSNumber × List Char) :=
  match takeDigits cs with
  | ([], _) => none
  | (d :: ds, r1) =>
    if d = 0 ∧ ds ≠ [] then none
    else
      match parseFraction r1 with
      | none => none
      | some (fs, r2) =>
        match parseExponent r2 with
        | none => none
        | some (e, r3) =>
          some (JSNumber.normalize neg (d :: ds ++ fs) (((d :: ds).length : Int) + e), r3)

/-- A number literal. -/
def parseNumber : List Char → Option (JSNumber × List Char)
  | [] => none
  | c :: cs => if c.toNat = 45 then parseUnsigned true cs else parseUnsigned false (c :: cs)

/-- Define property `k` of an object (`CreateDataProperty`): an existing
property keeps its place and takes the new value, a new one goes last. -/
def setProp (k : String) (v : JSON) : List (String × JSON) → List (String × JSON)
  | [] => [(k, v)]
  | (k1, v1) :: ms => if k1 = k then (k1, v) :: ms else (k1, v1) :: setProp k v ms

/-- The object with the given members defined in order. -/
def buildObject (ms : List (String × JSON)) : List (String × JSON) :=
  ms.foldl (fun acc m => setProp m.1 m.2 acc) []

mutual
/-- A JSON value after optional white space, and what follows it. -/
def parseValue : Nat → List Char → Option (JSON × List Char)
  | 0, _ => none
  | fuel + 1, cs =>
    match skipWs cs with
    | [] => none
    | c :: r =>
      if c.toNat = 110 then
        match r with
        | u :: l1 :: l2 :: r3 =>
          if u.toNat = 117 ∧ l1.toNat = 108 ∧ l2.toNat = 108 then some (JSON.null, r3) else none
        | _ => none
      else if c.toNat = 116 then
        match r with
        | r1 :: u :: e :: r3 =>
          if r1.toNat = 114 ∧ u.toNat = 117 ∧ e.toNat = 101 then some (JSON.bool true, r3)
          else none
        | _ => none
      else if c.toNat = 102 then
        match r with
        | a :: l :: s :: e :: r4 =>
          if a.toNat = 97 ∧ l.toNat = 108 ∧ s.toNat = 115 ∧ e.toNat = 101 then
            some (JSON.bool false, r4)
          else none
        | _ => none
      else if c.toNat = 34 then
        match parseStringBody none r with
        | some (s, r1) => some (JSON.str (String.mk s), r1)
        | none => none
      else if c.toNat = 91 then
        match skipWs r with
        | [] => none
        | c1 :: r1 =>
          if c1.toNat = 93 then some (JSON.arr [], r1)
          else
            match parseElems fuel (c1 :: r1) with
            | some (vs, r2) => some (JSON.arr vs, r2)
            | none => none
      else if c.toNat = 123 then
        match skipWs r with
        | [] => none
        | c1 :: r1 =>
          if c1.toNat = 125 then some (JSON.obj [], r1)
          else
            match parseMembers fuel (c1 :: r1) with
            | some (ms, r2) => some (JSON.obj (buildObject ms), r2)
            | none => none
      else
        match parseNumber (c :: r) with
        | some (n, r1) => some (JSON.num n, r1)
        | none => none
/-- The elements of a non-empty array up to its closing bracket. -/
def parseElems : Nat → List Char → Option (List JSON × List Char)
  | 0, _ => none
  | fuel + 1, cs =>
    match parseValue fuel cs with
    | none => none
    | some (v, r) =>
      match skipWs r with
      | [] => none
      | c :: r1 =>
        if c.toNat = 44 then
          match parseElems fuel r1 with
          | some (vs, r2) => some (v :: vs, r2)
          | none => none
        else if c.toNat = 93 then some ([v], r1)
        else none
/-- The members of a non-empty object up to its closing brace. -/
def parseMembers : Nat → List Char → Option (List (String × JSON) × List Char)
  | 0, _ => none
  | fuel + 1, cs =>
    match skipWs cs with
    | [] => none
    | q :: r =>
      if q.toNat = 34 then
        match parseStringBody none r with
        | none => none
        | some (k, r1) =>
          match skipWs r1 with
          | [] => none
          | c :: r2 =>
            if c.toNat = 58 then
              match parseValue fuel r2 with
              | none => none
              | some (v, r3) =>
                match skipWs r3 with
                | [] => none
                | d :: r4 =>
                  if d.toNat = 44 then
                    match parseMembers fuel r4 with
                    | some (ms, r5) => some ((String.mk k, v) :: ms, r5)
                    | none => none
                  else if d.toNat = 125 then some ([(String.mk k, v)], r4)
                  else none
            else none
      else none
end

/-- `JSON.parse(text)`: the value the text denotes, or a `SyntaxError`.  The
recursion is given fuel of twice the length of the text plus two: a
recursive call is made only after a character has been read or on behalf of
a value that has at least one character and a delimiter after it. -/
def JSON.parse (text : String) : Except JSError JSON :=
  match parseValue (2 * text.data.length + 2) text.data with
  | some (v, rest) =>
    match skipWs rest with
    | [] => .ok v
    | _ :: _ => .error JSError.syntaxErr
  | none => .error JSError.syntaxErr

/-! ### `Buffer.from(string)` and `buffer.toString()`: UTF-8 -/

/-- The contents of a `Buffer`: a list of bytes. -/
abbrev Buffer := List Nat

/-- The UTF-8 bytes of one character. -/
def utf8EncodeChar (c : Char) : List Nat :=
  let n := c.toNat
  if n < 0x80 then [n]
  else if n < 0x800 then [0xC0 + n / 64, 0x80 + n % 64]
  else if n < 0x10000 then [0xE0 + n / 4096, 0x80 + n / 64 % 64, 0x80 + n % 64]
  else [0xF0 + n / 262144, 0x80 + n / 4096 % 64, 0x80 + n / 64 % 64, 0x80 + n % 64]

/-- `Buffer.from(string)`: the UTF-8 encoding of the string. -/
def Buffer.fromString (s : String) : Buffer := s.data.flatMap utf8EncodeChar

/-- State of the UTF-8 decoder of the WHATWG Encoding standard: the number
of continuation bytes still needed, the code point gathered so far and the
bounds the next byte has to lie within. -/
structure Utf8State where
  needed : Nat
  codePoint : Nat
  lower : Nat
  upper : Nat
deriving DecidableEq, Repr

/-- The decoder between two characters. -/
def Utf8State.init : Utf8State := ⟨0, 0, 0x80, 0xBF⟩

/-- A byte read between two characters: the characters it yields and the
state it leaves. -/
def utf8Lead (b : Nat) : List Char × Utf8State :=
  if b < 0x80 then ([Char.ofNat b], Utf8State.init)
  else if 0xC2 ≤ b ∧ b ≤ 0xDF then ([], ⟨1, b - 0xC0, 0x80, 0xBF⟩)
  else if 0xE0 ≤ b ∧ b ≤ 0xEF then
    ([], ⟨2, b - 0xE0, if b = 0xE0 then 0xA0 else 0x80, if b = 0xED then 0x9F else 0xBF⟩)
  else if 0xF0 ≤ b ∧ b ≤ 0xF4 then
    ([], ⟨3, b - 0xF0, if b = 0xF0 then 0x90 else 0x80, if b = 0xF4 then 0x8F else 0xBF⟩)
  else ([replacementChar], Utf8State.init)

/-- The UTF-8 decoder of the WHATWG Encoding standard: an ill-formed
sequence yields one U+FFFD and decoding resumes at the offending byte; so
does a sequence cut short by the end of the input. -/
def utf8DecodeFrom (st : Utf8State) : List Nat → List Char
  | [] => if st.needed = 0 then [] else [replacementChar]
  | b :: bs =>
    if st.needed = 0 then (utf8Lead b).1 ++ utf8DecodeFrom (utf8Lead b).2 bs
    else if st.lower ≤ b ∧ b ≤ st.upper then
      if st.needed = 1 then
        Char.ofNat (st.codePoint * 64 + (b - 0x80)) :: utf8DecodeFrom Utf8State.init bs
      else utf8DecodeFrom ⟨st.needed - 1, st.codePoint * 64 + (b - 0x80), 0x80, 0xBF⟩ bs
    else replacementChar :: ((utf8Lead b).1 ++ utf8DecodeFrom (utf8Lead b).2 bs)

/-- Decode a whole byte sequence. -/
def utf8Decode (bs : List Nat) : List Char := utf8DecodeFrom Utf8State.init bs

/-- `buffer.toString()`: the string the bytes decode to as UTF-8. -/
def Buffer.toString (b : Buffer) : String := String.mk (utf8Decode b)

/-! ### Property access and string conversion -/

/-- Own property `key` of an object. -/
def ownProperty (key : String) : List (String × JSON) → Option JSON
  | [] => none
  | (k, v) :: ms => if k = key then some v else ownProperty key ms

/-- The expression `value.key` on a value of the JSON data model: a
`TypeError` on `null`, the own property of an object, `undefined` (`none`)
otherwise, since no prototype of these values has a property of the names
read here (`to`, `name`, `price`, `quantity`, `description`). -/
def JSON.getMember (v : JSON) (key : String) : Except JSError (Option JSON) :=
  match v with
  | .null => .error (.typeError "Cannot read properties of null")
  | .obj ms => .ok (ownProperty key ms)
  | _ => .ok none

mutual
/-- The abstract operation `ToString` on a value of the JSON data model.  An
array is joined with commas (`Array.prototype.join`).  An object without an
own property `toString` is `[object Object]`; with one, which is never
callable, `OrdinaryToPrimitive` finds no method that returns a primitive and
throws a `TypeError`. -/
def toDisplayChars : JSON → Except JSError (List Char)
  | .null => .ok ['n', 'u', 'l', 'l']
  | .bool true => .ok ['t', 'r', 'u', 'e']
  | .bool false => .ok ['f', 'a', 'l', 's', 'e']
  | .num n => .ok (numToString n)
  | .str s => .ok s.data
  | .arr [] => .ok []
  | .arr (.null :: es) => joinTail es
  | .arr (e :: es) =>
    match toDisplayChars e with
    | .error err => .error err
    | .ok s =>
      match joinTail es with
      | .error err => .error err
      | .ok t => .ok (s ++ t)
  | .obj ms =>
    match ownProperty "toString" ms with
    | some _ => .error (.typeError "Cannot convert object to primitive value")
    | none => .ok "[object Object]".data
/-- The remaining elements of a joined array, each after a comma; `null`
contributes the empty string. -/
def joinTail : List JSON → Except JSError (List Char)
  | [] => .ok []
  | .null :: es =>
    match joinTail es with
    | .error err => .error err
    | .ok t => .ok (',' :: t)
  | e :: es =>
    match toDisplayChars e with
    | .error err => .error err
    | .ok s =>
      match joinTail es with
      | .error err => .error err
      | .ok t => .ok (',' :: (s ++ t))
end

/-- The text of `${value}` in a template literal, `value` being a value of
the JSON data model or `undefined` (`none`). -/
def templateText : Option JSON → Except JSError String
  | none => .ok "undefined"
  | some v =>
    match toDisplayChars v with
    | .ok s => .ok (String.mk s)
    | .error e => .error e

/-! ### Well-formed payloads -/

mutual
/-- A payload whose numbers are in normal form and whose objects have no
repeated key, at every depth. -/
def JSON.wf : JSON → Bool
  | .null => true
  | .bool _ => true
  | .num n => decide n.WF
  | .str _ => true
  | .arr vs => wfElems vs
  | .obj ms => decide ((ms.map Prod.fst).Nodup) && wfMembers ms
/-- Every element is well formed. -/
def wfElems : List JSON → Bool
  | [] => true
  | v :: vs => v.wf && wfElems vs
/-- Every member's value is well formed. -/
def wfMembers : List (String × JSON) → Bool
  | [] => true
  | (_, v) :: ms => v.wf && wfMembers ms
end

/-- What may follow a number literal: nothing, or a character that does
not continue it. -/
def NumEnd (rest : List Char) : Prop :=
  ∀ c r, rest = c :: r → digitVal c = none ∧ c.toNat ≠ 46 ∧ c.toNat ≠ 101 ∧ c.toNat ≠ 69

/-- What follows a value inside a text written by `JSON.stringify`: nothing,
a comma, a closing bracket or a closing brace. -/
def Delim (rest : List Char) : Prop :=
  rest = [] ∨ ∃ c r, rest = c :: r ∧ (c.toNat = 44 ∨ c.toNat = 93 ∨ c.toNat = 125)

/-! ## Part 2. `src/config/rabbitmq.js`: the queue transport adapter -/

/-- A connection handed out by `amqp.connect`. -/
structure Connection where
  id : Nat
deriving DecidableEq, Repr

/-- A channel handed out by `connection.createChannel`. -/
structure Channel where
  id : Nat
deriving DecidableEq, Repr

/-- A message the broker delivers to a consumer: `msg.content` and the tag
the broker knows the delivery by. -/
structure Delivery where
  deliveryTag : Nat
  content : Buffer
deriving DecidableEq, Repr

/-- The functions of `rabbitmq.js` that can be passed around. -/
inductive Callback where
  | initRabbitMQ
  | sendToQueue
deriving DecidableEq, Repr

/-- What the code does to the world outside it, in the order it does it:
calls to the broker client, console output, timers. -/
inductive Effect where
  | connect (url : String)
  | createChannel (conn : Connection)
  | assertQueue (ch : Channel) (queue : String) (durable : Bool)
  | prefetch (ch : Channel) (count : Nat)
  | consume (ch : Channel) (queue : String)
  | sendToQueue (ch : Channel) (queue : String) (content : Buffer) (persistent : Bool)
  | ack (ch : Channel) (msg : Delivery)
  | nack (ch : Channel) (msg : Delivery) (allUpTo : Bool) (requeue : Bool)
  | log (text : String)
  | logValue (text : String) (value : JSON)
  | logError (text : String) (err : JSError)
  | setTimeout (callback : Callback) (ms : Nat)
  | listen
  | exit (code : Nat)
deriving DecidableEq, Repr

/-- The module variables of `rabbitmq.js` (lines 3-4): `undefined` is
`none`. -/
structure AdapterState where
  connection : Option Connection
  channel : Option Channel
deriving DecidableEq, Repr

/-- The module variables as declared: `let connection; let channel;`. -/
def AdapterState.initial : AdapterState := ⟨none, none⟩

/-- How the broker answers the three calls `initRabbitMQ` awaits. -/
structure BrokerOutcome where
  connect : Except LibraryError Connection
  createChannel : Except LibraryError Channel
  assertQueue : Except LibraryError Unit

/-- One run of a function of the adapter: the module variables it leaves,
what it did, and how it settles (`.error` is a thrown exception or a rejected
promise). -/
structure AdapterRun where
  state : AdapterState
  effects : List Effect
  result : Except JSError Unit
deriving DecidableEq, Repr

/-- The broker URL: `process.env.RABBITMQ_URL || 'amqp://localhost'`. -/
def brokerUrl (envUrl : Option String) : String :=
  match envUrl with
  | none => "amqp://localhost"
  | some u => if u = "" then "amqp://localhost" else u

/-- The function `initRabbitMQ` (rabbitmq.js lines 6-19). -/
def initRabbitMQ (envUrl : Option String) (o : BrokerOutcome) (st : AdapterState) : AdapterRun :=
  match o.connect with
  | .error e =>
    { state := st
      effects := [.connect (brokerUrl envUrl),
        .logError "RabbitMQ connection error:" (.library e), .setTimeout .initRabbitMQ 5000]
      result := .ok () }
  | .ok conn =>
    match o.createChannel with
    | .error e =>
      { state := { st with connection := some conn }
        effects := [.connect (brokerUrl envUrl), .createChannel conn,
          .logError "RabbitMQ connection error:" (.library e), .setTimeout .initRabbitMQ 5000]
        result := .ok () }
    | .ok ch =>
      match o.assertQueue with
      | .error e =>
        { state := { connection := some conn, channel := some ch }
          effects := [.connect (brokerUrl envUrl), .createChannel conn,
            .assertQueue ch "email_queue" true,
            .logError "RabbitMQ connection error:" (.library e), .setTimeout .initRabbitMQ 5000]
          result := .ok () }
      | .ok _ =>
        { state := { connection := some conn, channel := some ch }
          effects := [.connect (brokerUrl envUrl), .createChannel conn,
            .assertQueue ch "email_queue" true, .log "RabbitMQ connected"]
          result := .ok () }

/-- The function `sendToQueue` (rabbitmq.js lines 21-26); `sent` is how
`channel.sendToQueue` answers. -/
def sendToQueue (st : AdapterState) (sent : Except LibraryError Unit) (queue : String)
    (message : JSON) : AdapterRun :=
  match st.channel with
  | none =>
    { state := st, effects := [], result := .error (.error "RabbitMQ channel not initialized") }
  | some ch =>
    { state := st
      effects := [.sendToQueue ch queue (Buffer.fromString (JSON.stringify message)) true]
      result := match sent with
        | .ok _ => .ok ()
        | .error e => .error (.library e) }

/-- A value a module exports. -/
inductive Exported where
  | function (f : Callback)
  | channel (c : Option Channel)
  | connection (c : Option Connection)
deriving DecidableEq, Repr

/-- The object assigned to `module.exports` (rabbitmq.js line 28), built
from the values the module variables hold when the line runs. -/
def moduleExports (atLoad : AdapterState) : List (String × Exported) :=
  [("initRabbitMQ", .function .initRabbitMQ), ("channel", .channel atLoad.channel),
   ("connection", .connection atLoad.connection), ("sendToQueue", .function .sendToQueue)]

/-- What `require('./config/rabbitmq')` returns: the module body runs once,
and line 28 runs right after the declarations of lines 3-4. -/
def rabbitmqModule : List (String × Exported) := moduleExports AdapterState.initial

/-- Property `name` of the exports object. -/
def exported (name : String) : List (String × Exported) → Option Exported
  | [] => none
  | (k, v) :: rest => if k = name then some v else exported name rest

/-! ## Part 3. `src/workers/emailWorker.js`: the task consumer -/

/-- The constant `channel` of the worker module (emailWorker.js line 1):
the property `channel` of the adapter's exports object. -/
def workerChannel : Option Channel :=
  match exported "channel" rabbitmqModule with
  | some (.channel c) => c
  | _ => none

/-- One run of a function of the worker: what it did and how it settles. -/
structure Run where
  effects : List Effect
  result : Except JSError Unit
deriving DecidableEq, Repr

/-- The simulated dispatch (emailWorker.js line 20): the line it prints, or
the exception that evaluating the template literal throws. -/
def sendEmail (emailData : JSON) : Except JSError String :=
  match emailData.getMember "to" with
  | .error e => .error e
  | .ok recipient =>
    match templateText recipient with
    | .error e => .error e
    | .ok text => .ok ("Email sent to: " ++ text)

/-- The consume callback (emailWorker.js lines 13-27) on channel
`channel`; `msg` is `none` when the broker cancels the consumer.  The
callback runs without suspending on the channel the delivery just arrived
on, where `channel.ack` and `channel.nack` return normally. -/
def onMessage (channel : Channel) (msg : Option Delivery) : Run :=
  match msg with
  | none => { effects := [], result := .ok () }
  | some m =>
    match JSON.parse (Buffer.toString m.content) with
    | .error e => { effects := [], result := .error e }
    | .ok emailData =>
      match sendEmail emailData with
      | .ok line =>
        { effects := [.logValue "Processing email:" emailData, .log line, .ack channel m]
          result := .ok () }
      | .error e =>
        { effects := [.logValue "Processing email:" emailData,
            .logError "Error sending email:" e, .nack channel m false true]
          result := .ok () }

/-- How the channel answers the calls `startEmailWorker` awaits. -/
structure WorkerOutcome where
  assertQueue : Except LibraryError Unit
  prefetch : Except LibraryError Unit

/-- The body of `startEmailWorker` (emailWorker.js lines 3-33) for a given
value of the module constant `channel`. -/
def startEmailWorkerOn (channel : Option Channel) (o : WorkerOutcome) : Run :=
  match channel with
  | none => { effects := [.log "RabbitMQ channel not ready"], result := .ok () }
  | some ch =>
    match o.assertQueue with
    | .error e =>
      { effects := [.assertQueue ch "email_queue" true,
          .logError "Email worker error:" (.library e)]
        result := .ok () }
    | .ok _ =>
      match o.prefetch with
      | .error e =>
        { effects := [.assertQueue ch "email_queue" true, .prefetch ch 1,
            .logError "Email worker error:" (.library e)]
          result := .ok () }
      | .ok _ =>
        { effects := [.assertQueue ch "email_queue" true, .prefetch ch 1,
            .consume ch "email_queue", .log "Email worker started"]
          result := .ok () }

/-- The function `startEmailWorker`: its body on the module's `channel`. -/
def startEmailWorker (o : WorkerOutcome) : Run := startEmailWorkerOn workerChannel o

/-- The states of a consumer (spec 4.3). -/
inductive WorkerState where
  | stopped
  | starting
  | consuming
deriving DecidableEq, Repr

/-- The state a consumer is in after the effects performed so far: it is
starting once it declares the queue and consuming once it has registered
its callback. -/
def workerStateAfter : List Effect → WorkerState
  | [] => .stopped
  | .consume _ _ :: _ => .consuming
  | .assertQueue _ _ _ :: rest =>
    match workerStateAfter rest with
    | .stopped => .starting
    | s => s
  | _ :: rest => workerStateAfter rest

/-! ## Part 4. `src/controllers/productController.js`: cache invalidation -/

/-- An entry of the cache store: the serialized value and the time to live
it was stored with, in seconds. -/
structure CacheEntry where
  value : String
  ttl : Nat
deriving DecidableEq, Repr

/-- Modelled from the spec: the cache store behind `redisClient`
(`src/config/redis.js` is not part of the sources).  Spec 4.4: a key/value
store with `get(key) -> bytes | absent`, `setWithTTL(key, bytes, ttl)` and
`delete(key)`, each operation atomic. -/
abbrev Cache := String → Option CacheEntry

/-- Modelled from the spec: `delete(key)` (the client's `del`). -/
def Cache.del (c : Cache) (key : String) : Cache :=
  fun k => if k = key then none else c k

/-- Modelled from the spec: `setWithTTL(key, bytes, ttl)` (the client's
`setEx`). -/
def Cache.setEx (c : Cache) (key : String) (ttl : Nat) (value : String) : Cache :=
  fun k => if k = key then some ⟨value, ttl⟩ else c k

/-- Modelled from the spec: `get(key) -> bytes | absent` (the client's
`get`, which answers `null` for an absent key). -/
def Cache.get (c : Cache) (key : String) : Option String :=
  match c key with
  | some e => some e.value
  | none => none

/-- Whether the commands a handler sends to the store fail (spec 7: a
`ConnectionError` of the cache is surfaced); a failed command leaves the
store as it was. -/
structure CacheOutcome where
  get : Option LibraryError
  setEx : Option LibraryError
  del : Option LibraryError
deriving DecidableEq, Repr

/-- The parts of an Express request the handlers read: `req.body`
(`undefined` when no body was parsed) and `req.params`. -/
structure Request where
  body : Option JSON
  params : List (String × String)
deriving DecidableEq, Repr

/-- The `product` object of the response of `createProduct`; a field that
is `undefined` is `none`. -/
structure Product where
  id : Nat
  name : Option JSON
  price : Option JSON
  quantity : Option JSON
  description : Option JSON
deriving DecidableEq, Repr

/-- A response `res.status(status).json({...})`; a property the object
literal does not have is `none`. -/
structure Response where
  status : Nat
  success : Bool
  message : Option String
  product : Option Product
  products : Option JSON
  fromCache : Option Bool
deriving DecidableEq, Repr

/-- What a handler does, in the order it does it: commands to the cache
store, the response, the error handed to `next`. -/
inductive HttpEffect where
  | cacheGet (key : String)
  | cacheSetEx (key : String) (ttl : Nat) (value : String)
  | cacheDel (key : String)
  | respond (res : Response)
  | next (err : JSError)
deriving DecidableEq, Repr

/-- One run of a handler: the cache it leaves and what it did. -/
structure HandlerRun where
  cache : Cache
  effects : List HttpEffect

/-- The cache key of the products list (`cacheKey` in every handler). -/
def cacheKey : String := "products:list"

/-- The destructuring `const { name, price, quantity, description } =
req.body` (productController.js line 6). -/
def destructureBody (body : Option JSON) : Except JSError Product :=
  match body with
  | none => .error (.typeError "Cannot destructure property of undefined")
  | some b =>
    match b.getMember "name", b.getMember "price", b.getMember "quantity",
      b.getMember "description" with
    | .ok name, .ok price, .ok quantity, .ok description =>
      .ok { id := 1, name := name, price := price, quantity := quantity,
            description := description }
    | .error e, _, _, _ => .error e
    | _, .error e, _, _ => .error e
    | _, _, .error e, _ => .error e
    | _, _, _, .error e => .error e

/-- The handler `createProduct` (productController.js lines 4-18). -/
def createProduct (req : Request) (o : CacheOutcome) (cache : Cache) : HandlerRun :=
  match destructureBody req.body with
  | .error e => { cache := cache, effects := [.next e] }
  | .ok product =>
    match o.del with
    | some e => { cache := cache, effects := [.cacheDel cacheKey, .next (.library e)] }
    | none =>
      { cache := cache.del cacheKey
        effects := [.cacheDel cacheKey,
          .respond { status := 201, success := true, message := some "Product created",
                     product := some product, products := none, fromCache := none }] }

/-- The miss path of `getProducts` (productController.js lines 33-39):
recompute the view, store it for 3600 seconds, respond. -/
def repopulate (o : CacheOutcome) (cache : Cache) : HandlerRun :=
  let products : JSON := .arr []
  match o.setEx with
  | some e =>
    { cache := cache
      effects := [.cacheGet cacheKey, .cacheSetEx cacheKey 3600 (JSON.stringify products),
        .next (.library e)] }
  | none =>
    { cache := cache.setEx cacheKey 3600 (JSON.stringify products)
      effects := [.cacheGet cacheKey, .cacheSetEx cacheKey 3600 (JSON.stringify products),
        .respond { status := 200, success := true, message := none, product := none,
                   products := some products, fromCache := none }] }

/-- The handler `getProducts` (productController.js lines 20-43).  The test
`if (cached)` takes `null` and the empty string for a miss. -/
def getProducts (_req : Request) (o : CacheOutcome) (cache : Cache) : HandlerRun :=
  match o.get with
  | some e => { cache := cache, effects := [.cacheGet cacheKey, .next (.library e)] }
  | none =>
    match cache.get cacheKey with
    | none => repopulate o cache
    | some cached =>
      if cached = "" then repopulate o cache
      else
        match JSON.parse cached with
        | .ok v =>
          { cache := cache
            effects := [.cacheGet cacheKey,
              .respond { status := 200, success := true, message := none, product := none,
                         products := some v, fromCache := some true }] }
        | .error e => { cache := cache, effects := [.cacheGet cacheKey, .next e] }

/-- The handler `updateProduct` (productController.js lines 45-58);
`req.params` is always an object, so line 47 does not throw. -/
def updateProduct (_req : Request) (o : CacheOutcome) (cache : Cache) : HandlerRun :=
  match o.del with
  | some e => { cache := cache, effects := [.cacheDel cacheKey, .next (.library e)] }
  | none =>
    { cache := cache.del cacheKey
      effects := [.cacheDel cacheKey,
        .respond { status := 200, success := true, message := some "Product updated",
                   product := none, products := none, fromCache := none }] }

/-- The handler `deleteProduct` (productController.js lines 60-73);
`req.params` is always an object, so line 62 does not throw. -/
def deleteProduct (_req : Request) (o : CacheOutcome) (cache : Cache) : HandlerRun :=
  match o.del with
  | some e => { cache := cache, effects := [.cacheDel cacheKey, .next (.library e)] }
  | none =>
    { cache := cache.del cacheKey
      effects := [.cacheDel cacheKey,
        .respond { status := 200, success := true, message := some "Product deleted",
                   product := none, products := none, fromCache := none }] }

/-- The four handlers of the products routes. -/
inductive Handler where
  | createProduct
  | getProducts
  | updateProduct
  | deleteProduct
deriving DecidableEq, Repr

/-- The handlers that write to the system of record. -/
def Handler.isWrite : Handler → Bool
  | .getProducts => false
  | _ => true

/-- One call of a handler: the request and how the cache store answers. -/
structure Call where
  handler : Handler
  req : Request
  outcome : CacheOutcome
deriving DecidableEq, Repr

/-- Run one call on a cache. -/
def Call.run (c : Call) (cache : Cache) : HandlerRun :=
  match c.handler with
  | .createProduct => createProduct c.req c.outcome cache
  | .getProducts => getProducts c.req c.outcome cache
  | .updateProduct => updateProduct c.req c.outcome cache
  | .deleteProduct => deleteProduct c.req c.outcome cache

/-- A success response among the effects: `success: true` with a 2xx
status. -/
def isSuccess : HttpEffect → Bool
  | .respond r => r.success && decide (200 ≤ r.status ∧ r.status < 300)
  | _ => false

/-- A response marked as served from the cache. -/
def isFromCache : HttpEffect → Bool
  | .respond r => r.fromCache == some true
  | _ => false

/-- A command that deletes from or writes to the cache store. -/
def isCacheWrite : HttpEffect → Bool
  | .cacheSetEx _ _ _ => true
  | .cacheDel _ => true
  | _ => false

/-! ## Part 5. `server.js`: process start-up -/

/-- How the module body of `server.js` ends: the adapter's variables, what
was done, and the exception that escaped the module body, if any (Node
prints it and ends the process with exit code 1). -/
structure StartupRun where
  adapter : AdapterState
  effects : List Effect
  uncaught : Option JSError
deriving DecidableEq, Repr

/-- Whether the process is over after start-up: an exception escaped, or
`process.exit` was called. -/
def StartupRun.terminated (r : StartupRun) : Bool :=
  r.uncaught.isSome || r.effects.any (fun e => match e with | .exit _ => true | _ => false)

/-- Lines 8-16 of `server.js` for a given value of the binding
`connectRabbitMQ`: call it, exit with code 1 should its promise reject, and
start listening (which happens while the first call to the broker is
pending).  Calling what is not a function throws a `TypeError`. -/
def startServer (connectRabbitMQ : Option Exported) (envUrl : Option String)
    (o : BrokerOutcome) : StartupRun :=
  match connectRabbitMQ with
  | some (.function f) =>
    let r : AdapterRun :=
      match f with
      | .initRabbitMQ => initRabbitMQ envUrl o AdapterState.initial
      | .sendToQueue => sendToQueue AdapterState.initial (.ok ()) "undefined" .null
    match r.result with
    | .ok _ =>
      { adapter := r.state, effects := r.effects.take 1 ++ .listen :: r.effects.drop 1
        uncaught := none }
    | .error e =>
      { adapter := r.state
        effects := r.effects.take 1 ++ .listen :: (r.effects.drop 1 ++
          [.logError "Failed to connect to RabbitMQ:" e, .exit 1])
        uncaught := none }
  | _ =>
    { adapter := AdapterState.initial, effects := []
      uncaught := some (.typeError "connectRabbitMQ is not a function") }

/-- The module body of `server.js`: line 2 binds `connectRabbitMQ` to the
property of that name of the adapter's exports. -/
def serverStartup (envUrl : Option String) (o : BrokerOutcome) : StartupRun :=
  startServer (exported "connectRabbitMQ" rabbitmqModule) envUrl o

/-! ## Part 6. Vocabulary of the properties -/

/-- An acknowledgment or a negative acknowledgment. -/
def isAckOrNack : Effect → Bool
  | .ack _ _ => true
  | .nack _ _ _ _ => true
  | _ => false

/-- A message published to a queue. -/
def isPublish : Effect → Bool
  | .sendToQueue _ _ _ _ => true
  | _ => false

/-- A timer. -/
def isTimer : Effect → Bool
  | .setTimeout _ _ => true
  | _ => false

/-- A call to the broker client. -/
def isBrokerCall : Effect → Bool
  | .connect _ => true
  | .createChannel _ => true
  | .assertQueue _ _ _ => true
  | .prefetch _ _ => true
  | .consume _ _ => true
  | .sendToQueue _ _ _ _ => true
  | .ack _ _ => true
  | .nack _ _ _ _ => true
  | _ => false

/-- Whether a run of a handler sent a success response. -/
def HandlerRun.succeeded (r : HandlerRun) : Bool := r.effects.any isSuccess

/-- The handler can read the request: `createProduct` destructures
`req.body` (line 6), which must be neither `undefined` nor `null`; the other
handlers read `req.params` only, which is always an object. -/
def Call.readable (c : Call) : Prop :=
  c.handler = .createProduct → ∃ b, c.req.body = some b ∧ b ≠ JSON.null

/-- The cache after a sequence of calls run one after the other. -/
def runCalls (cache : Cache) (calls : List Call) : Cache :=
  calls.foldl (fun c call => (call.run c).cache) cache

/-- The broker is unavailable: one of the three calls of `initRabbitMQ`
fails. -/
def BrokerOutcome.fails (o : BrokerOutcome) : Prop :=
  (∃ e, o.connect = .error e) ∨ (∃ e, o.createChannel = .error e) ∨ (∃ e, o.assertQueue = .error e)

/-- The broker answers all three calls of `initRabbitMQ`. -/
def BrokerOutcome.succeeds (o : BrokerOutcome) : Prop :=
  (∃ c, o.connect = .ok c) ∧ (∃ c, o.createChannel = .ok c) ∧ o.assertQueue = .ok ()

/-- The notification task of the spec's scenarios. -/
def notifyTask : JSON := .obj [("kind", .str "notify"), ("to", .str "user@example.com")]

/-- The JSON text of the notification task. -/
def notifyText : String := "\x7b\"kind\":\"notify\",\"to\":\"user@example.com\"\x7d"

/-! ## Part 7. Properties -/

/-- C1. `sendToQueue` fails with the not-initialized error exactly when the
adapter's channel is unset, and then it publishes nothing (it performs no
effect at all and leaves the module variables as they were). -/
theorem sendToQueue_not_initialized_iff (st : AdapterState) (sent : Except LibraryError Unit)
    (queue : String) (message : JSON) :
    ((sendToQueue st sent queue message).result
        = .error (.error "RabbitMQ channel not initialized") ↔ st.channel = none) ∧
    (st.channel = none →
      (sendToQueue st sent queue message).effects = [] ∧
      (sendToQueue st sent queue message).state = st) := by
  unfold sendToQueue
  cases hc : st.channel with
  | none => simp
  | some ch => cases sent <;> simp

/-- C2. With a channel open, `sendToQueue(q, m)` performs exactly one
effect: one publish on that channel to queue `q`, whose body is the UTF-8
encoding of `JSON.stringify(m)`, with `persistent: true`; so no other queue
receives a message. -/
theorem sendToQueue_publishes_once (st : AdapterState) (ch : Channel)
    (sent : Except LibraryError Unit) (q : String) (m : JSON) (h : st.channel = some ch) :
    (sendToQueue st sent q m).effects
      = [Effect.sendToQueue ch q (Buffer.fromString (JSON.stringify m)) true] ∧
    ((sendToQueue st sent q m).effects.filter isPublish).length = 1 ∧
    (∀ ch1 q1 body opts, Effect.sendToQueue ch1 q1 body opts ∈ (sendToQueue st sent q m).effects →
      q1 = q ∧ opts = true) := by
  unfold sendToQueue
  rw [h]
  simp only [isPublish, List.filter_cons_of_pos, List.filter_nil, List.length_singleton,
    List.mem_singleton, Effect.sendToQueue.injEq, true_and]
  intro ch1 q1 body opts hmem
  exact ⟨hmem.2.1, hmem.2.2.2⟩

/-- Witness of C2: the notification task of the spec published to
`email_queue`; its body is the UTF-8 encoding of its JSON text. -/
theorem sendToQueue_publishes_once_witness :
    JSON.stringify notifyTask = notifyText ∧
    (sendToQueue ⟨some ⟨1⟩, some ⟨7⟩⟩ (.ok ()) "email_queue" notifyTask).effects
      = [Effect.sendToQueue ⟨7⟩ "email_queue" (Buffer.fromString notifyText) true] :=
  ⟨by decide,
    (sendToQueue_publishes_once ⟨some ⟨1⟩, some ⟨7⟩⟩ ⟨7⟩ (.ok ()) "email_queue" notifyTask
      rfl).1⟩

/-- C4. A delivery whose payload deserializes and whose simulated dispatch
succeeds is acknowledged exactly once, is not negatively acknowledged, and
the callback settles normally. -/
theorem onMessage_success_acks_once (channel : Channel) (m : Delivery) (emailData : JSON)
    (line : String)
    (hparse : JSON.parse (Buffer.toString m.content) = .ok emailData)
    (hsend : sendEmail emailData = .ok line) :
    (onMessage channel (some m)).effects.filter isAckOrNack = [Effect.ack channel m] ∧
    (onMessage channel (some m)).effects.count (Effect.ack channel m) = 1 ∧
    (∀ allUpTo requeue, Effect.nack channel m allUpTo requeue ∉ (onMessage channel (some m)).effects) ∧
    (onMessage channel (some m)).result = .ok () := by
  simp [onMessage, hparse, hsend, isAckOrNack]

/-- Witness of C4: the notification task of the spec, as the producer
serializes it. -/
theorem onMessage_success_acks_once_witness :
    JSON.parse (Buffer.toString (Buffer.fromString notifyText)) = .ok notifyTask ∧
    sendEmail notifyTask = .ok "Email sent to: user@example.com" ∧
    (onMessage ⟨7⟩ (some ⟨1, Buffer.fromString notifyText⟩)).effects.filter isAckOrNack
      = [Effect.ack ⟨7⟩ ⟨1, Buffer.fromString notifyText⟩] :=
  ⟨by decide, by decide,
    (onMessage_success_acks_once ⟨7⟩ ⟨1, Buffer.fromString notifyText⟩ notifyTask
      "Email sent to: user@example.com" (by decide) (by decide)).1⟩

/-- C5, at a delivery whose content is the text `not json`: the callback
rejects with the `SyntaxError` of `JSON.parse` and sends neither a negative
acknowledgment nor an acknowledgment. -/
theorem onMessage_invalid_json_rejects :
    onMessage ⟨7⟩ (some ⟨1, Buffer.fromString "not json"⟩)
      = { effects := [], result := .error JSError.syntaxErr } := by
  decide

/-- The text `not json` is rejected whatever the fuel: no value starts with
`no`. -/
theorem parseValue_not_json (fuel : Nat) : parseValue fuel "not json".data = none := by
  cases fuel <;> rfl

/-- The empty text is rejected whatever the fuel. -/
theorem parseValue_empty (fuel : Nat) : parseValue fuel [] = none := by
  cases fuel <;> rfl

/-- Every delivery whose content fails to deserialize makes the callback
reject without any effect: line 15 stands outside the `try` of line 18. -/
theorem onMessage_parse_failure_rejects (channel : Channel) (m : Delivery) (e : JSError)
    (hparse : JSON.parse (Buffer.toString m.content) = .error e) :
    onMessage channel (some m) = { effects := [], result := .error e } := by
  simp [onMessage, hparse]

/-- A delivery whose payload deserializes and whose simulated dispatch
throws is negatively acknowledged once with `requeue = true`, is not
acknowledged, and the callback settles normally. -/
theorem onMessage_task_failure_nacks (channel : Channel) (m : Delivery) (emailData : JSON)
    (e : JSError)
    (hparse : JSON.parse (Buffer.toString m.content) = .ok emailData)
    (hsend : sendEmail emailData = .error e) :
    (onMessage channel (some m)).effects.filter isAckOrNack
      = [Effect.nack channel m false true] ∧
    (onMessage channel (some m)).result = .ok () := by
  simp [onMessage, hparse, hsend, isAckOrNack]

/-- The payload `null` deserializes and makes the dispatch throw: such
deliveries exist. -/
theorem onMessage_task_failure_nacks_witness :
    (onMessage ⟨7⟩ (some ⟨1, Buffer.fromString "null"⟩)).effects.filter isAckOrNack
      = [Effect.nack ⟨7⟩ ⟨1, Buffer.fromString "null"⟩ false true] :=
  (onMessage_task_failure_nacks ⟨7⟩ ⟨1, Buffer.fromString "null"⟩ .null
    (.typeError "Cannot read properties of null") (by decide) (by decide)).1

/-- Every failure of `connect`, `createChannel` or the queue declaration
leaves `initRabbitMQ` settled normally, with exactly one timer: another
`initRabbitMQ` after 5000 ms. -/
theorem initRabbitMQ_failure_retries (envUrl : Option String) (o : BrokerOutcome)
    (st : AdapterState) (h : o.fails) :
    (initRabbitMQ envUrl o st).result = .ok () ∧
    (initRabbitMQ envUrl o st).effects.filter isTimer
      = [Effect.setTimeout Callback.initRabbitMQ 5000] := by
  unfold initRabbitMQ
  rcases h with ⟨e, h⟩ | ⟨e, h⟩ | ⟨e, h⟩
  · simp [h, isTimer]
  · cases hc : o.connect <;> simp [h, isTimer]
  · cases hc : o.connect <;> cases hch : o.createChannel <;> simp [h, isTimer]

/-- A broker that refuses the connection: the retry is scheduled. -/
theorem initRabbitMQ_failure_retries_witness :
    (initRabbitMQ none ⟨.error ⟨"Error", "connect ECONNREFUSED"⟩, .ok ⟨7⟩, .ok ()⟩
        AdapterState.initial).effects.filter isTimer
      = [Effect.setTimeout Callback.initRabbitMQ 5000] :=
  (initRabbitMQ_failure_retries none ⟨.error ⟨"Error", "connect ECONNREFUSED"⟩, .ok ⟨7⟩, .ok ()⟩
    AdapterState.initial (Or.inl ⟨_, rfl⟩)).2

/-- `initRabbitMQ` never throws or rejects, and when the broker answers all
three calls it schedules no timer. -/
theorem initRabbitMQ_settles (envUrl : Option String) (o : BrokerOutcome) (st : AdapterState) :
    (initRabbitMQ envUrl o st).result = .ok () := by
  unfold initRabbitMQ
  cases hc : o.connect <;> cases hch : o.createChannel <;> cases ha : o.assertQueue <;> simp

/-- C9, at a broker that refuses the connection: the module body of
`server.js` ends with an uncaught `TypeError` before any call to the broker
and before any timer, and the process is over. -/
theorem serverStartup_broker_down_terminates :
    serverStartup none ⟨.error ⟨"Error", "connect ECONNREFUSED"⟩,
        .error ⟨"Error", "connect ECONNREFUSED"⟩, .error ⟨"Error", "connect ECONNREFUSED"⟩⟩
      = { adapter := AdapterState.initial, effects := []
          uncaught := some (.typeError "connectRabbitMQ is not a function") } ∧
    (serverStartup none ⟨.error ⟨"Error", "connect ECONNREFUSED"⟩,
        .error ⟨"Error", "connect ECONNREFUSED"⟩,
        .error ⟨"Error", "connect ECONNREFUSED"⟩⟩).terminated = true := by
  decide

/-- The exports of `rabbitmq.js` have no property `connectRabbitMQ`, so
start-up ends the same way whatever the broker does. -/
theorem serverStartup_always_terminates (envUrl : Option String) (o : BrokerOutcome) :
    exported "connectRabbitMQ" rabbitmqModule = none ∧
    (serverStartup envUrl o).uncaught = some (.typeError "connectRabbitMQ is not a function") ∧
    (serverStartup envUrl o).effects.filter isBrokerCall = [] ∧
    (serverStartup envUrl o).terminated = true := by
  have h : exported "connectRabbitMQ" rabbitmqModule = none := by decide
  simp [serverStartup, h, startServer, StartupRun.terminated]

/-- Bound to the exported `initRabbitMQ`, the same start-up code keeps the
process alive whatever the broker does. -/
theorem startServer_initRabbitMQ_survives (envUrl : Option String) (o : BrokerOutcome) :
    (startServer (exported "initRabbitMQ" rabbitmqModule) envUrl o).terminated = false := by
  have h : exported "initRabbitMQ" rabbitmqModule = some (.function .initRabbitMQ) := by decide
  simp only [h, startServer, initRabbitMQ_settles, StartupRun.terminated]
  unfold initRabbitMQ
  cases hc : o.connect <;> cases hch : o.createChannel <;> cases ha : o.assertQueue <;> simp

/-- C10, after an `initRabbitMQ` that succeeded from the initial state:
the adapter holds the open channel, the worker module's `channel` is still
`undefined`, and `startEmailWorker` only logs that the channel is not ready:
no queue declaration, no prefetch, no consumer, and the worker stays
stopped. -/
theorem startEmailWorker_after_init_not_ready :
    (initRabbitMQ none ⟨.ok ⟨1⟩, .ok ⟨7⟩, .ok ()⟩ AdapterState.initial).state.channel = some ⟨7⟩ ∧
    workerChannel = none ∧
    startEmailWorker ⟨.ok (), .ok ()⟩
      = { effects := [.log "RabbitMQ channel not ready"], result := .ok () } ∧
    workerStateAfter (startEmailWorker ⟨.ok (), .ok ()⟩).effects = WorkerState.stopped := by
  decide

/-- The worker module's `channel` does not depend on the adapter's state:
whatever `initRabbitMQ` did, `startEmailWorker` makes no call to the
broker. -/
theorem startEmailWorker_never_starts (w : WorkerOutcome) :
    startEmailWorker w = { effects := [.log "RabbitMQ channel not ready"], result := .ok () } := by
  have h : workerChannel = none := by decide
  simp [startEmailWorker, h, startEmailWorkerOn]

/-- Whenever the broker answers all three calls, `initRabbitMQ` leaves the
channel it opened in the adapter's variable, while the constant of the worker
module stays `undefined`. -/
theorem initRabbitMQ_success_opens_channel (envUrl : Option String) (o : BrokerOutcome)
    (st : AdapterState) (h : o.succeeds) :
    (∃ ch, o.createChannel = .ok ch ∧ (initRabbitMQ envUrl o st).state.channel = some ch) ∧
    workerChannel = none := by
  obtain ⟨⟨conn, hc⟩, ⟨ch, hch⟩, ha⟩ := h
  refine ⟨⟨ch, hch, ?_⟩, by decide⟩
  simp [initRabbitMQ, hc, hch, ha]

/-- On an open channel the body of `startEmailWorker` declares the queue,
sets the prefetch to 1 and registers the consumer, in this order, and the
worker ends consuming. -/
theorem startEmailWorkerOn_open_channel (ch : Channel) :
    (startEmailWorkerOn (some ch) ⟨.ok (), .ok ()⟩).effects.filter isBrokerCall
      = [.assertQueue ch "email_queue" true, .prefetch ch 1, .consume ch "email_queue"] ∧
    workerStateAfter (startEmailWorkerOn (some ch) ⟨.ok (), .ok ()⟩).effects
      = WorkerState.consuming := by
  simp [startEmailWorkerOn, isBrokerCall, workerStateAfter]

/-! ### The products handlers -/

/-- The three ways a write handler runs: the body cannot be destructured
(`createProduct` only) and nothing is sent to the cache; the deletion fails;
the deletion succeeds and a success response follows. -/
theorem write_run_shape (c : Call) (cache : Cache) (hw : c.handler.isWrite = true) :
    (∃ e, (c.run cache).cache = cache ∧ (c.run cache).effects = [.next e]) ∨
    (∃ err, c.outcome.del = some err ∧ (c.run cache).cache = cache ∧
      (c.run cache).effects = [.cacheDel cacheKey, .next (.library err)]) ∨
    (∃ res, c.outcome.del = none ∧ (c.run cache).cache = cache.del cacheKey ∧
      (c.run cache).effects = [.cacheDel cacheKey, .respond res] ∧
      isSuccess (.respond res) = true ∧ res.fromCache = none) := by
  obtain ⟨handler, req, o⟩ := c
  cases handler
  case getProducts => simp [Handler.isWrite] at hw
  case createProduct =>
    simp only [Call.run, createProduct]
    cases hb : destructureBody req.body with
    | error e => exact Or.inl ⟨e, rfl, rfl⟩
    | ok product =>
      cases hd : o.del with
      | some e => exact Or.inr (Or.inl ⟨e, rfl, rfl, rfl⟩)
      | none => exact Or.inr (Or.inr ⟨_, rfl, rfl, rfl, by simp [isSuccess], rfl⟩)
  case updateProduct =>
    simp only [Call.run, updateProduct]
    cases hd : o.del with
    | some e => exact Or.inr (Or.inl ⟨e, rfl, rfl, rfl⟩)
    | none => exact Or.inr (Or.inr ⟨_, rfl, rfl, rfl, by simp [isSuccess], rfl⟩)
  case deleteProduct =>
    simp only [Call.run, deleteProduct]
    cases hd : o.del with
    | some e => exact Or.inr (Or.inl ⟨e, rfl, rfl, rfl⟩)
    | none => exact Or.inr (Or.inr ⟨_, rfl, rfl, rfl, by simp [isSuccess], rfl⟩)

/-- The text `JSON.parse` rejects the empty string. -/
theorem parse_empty : JSON.parse "" = .error JSError.syntaxErr := by decide

/-- The five ways `getProducts` runs. -/
theorem getProducts_shape (req : Request) (o : CacheOutcome) (cache : Cache) :
    (∃ err, o.get = some err ∧ (getProducts req o cache).cache = cache ∧
      (getProducts req o cache).effects = [.cacheGet cacheKey, .next (.library err)]) ∨
    (∃ v j, o.get = none ∧ cache.get cacheKey = some v ∧ v ≠ "" ∧ JSON.parse v = .ok j ∧
      (getProducts req o cache).cache = cache ∧
      (getProducts req o cache).effects = [.cacheGet cacheKey,
        .respond { status := 200, success := true, message := none, product := none,
                   products := some j, fromCache := some true }]) ∨
    (∃ v e, o.get = none ∧ cache.get cacheKey = some v ∧ v ≠ "" ∧ JSON.parse v = .error e ∧
      (getProducts req o cache).cache = cache ∧
      (getProducts req o cache).effects = [.cacheGet cacheKey, .next e]) ∨
    (∃ err, o.get = none ∧ (cache.get cacheKey = none ∨ cache.get cacheKey = some "") ∧
      o.setEx = some err ∧ (getProducts req o cache).cache = cache ∧
      (getProducts req o cache).effects = [.cacheGet cacheKey,
        .cacheSetEx cacheKey 3600 (JSON.stringify (.arr [])), .next (.library err)]) ∨
    (o.get = none ∧ (cache.get cacheKey = none ∨ cache.get cacheKey = some "") ∧
      o.setEx = none ∧
      (getProducts req o cache).cache = cache.setEx cacheKey 3600 (JSON.stringify (.arr [])) ∧
      (getProducts req o cache).effects = [.cacheGet cacheKey,
        .cacheSetEx cacheKey 3600 (JSON.stringify (.arr [])),
        .respond { status := 200, success := true, message := none, product := none,
                   products := some (.arr []), fromCache := none }]) := by
  unfold getProducts
  cases hg : o.get with
  | some err => exact Or.inl ⟨err, rfl, rfl, rfl⟩
  | none =>
    have miss : ∀ (_ : cache.get cacheKey = none ∨ cache.get cacheKey = some ""),
        (∃ err, (cache.get cacheKey = none ∨ cache.get cacheKey = some "") ∧
          o.setEx = some err ∧ (repopulate o cache).cache = cache ∧
          (repopulate o cache).effects = [.cacheGet cacheKey,
            .cacheSetEx cacheKey 3600 (JSON.stringify (.arr [])), .next (.library err)]) ∨
        ((cache.get cacheKey = none ∨ cache.get cacheKey = some "") ∧ o.setEx = none ∧
          (repopulate o cache).cache = cache.setEx cacheKey 3600 (JSON.stringify (.arr [])) ∧
          (repopulate o cache).effects = [.cacheGet cacheKey,
            .cacheSetEx cacheKey 3600 (JSON.stringify (.arr [])),
            .respond { status := 200, success := true, message := none, product := none,
                       products := some (.arr []), fromCache := none }]) := by
      intro hm
      unfold repopulate
      cases hs : o.setEx with
      | some err => exact Or.inl ⟨err, hm, rfl, rfl, rfl⟩
      | none => exact Or.inr ⟨hm, rfl, rfl, rfl⟩
    cases hc : cache.get cacheKey with
    | none =>
      dsimp only
      rcases miss (Or.inl hc) with ⟨err, -, h2, h3, h4⟩ | ⟨-, h2, h3, h4⟩
      · exact Or.inr (Or.inr (Or.inr (Or.inl ⟨err, rfl, Or.inl rfl, h2, h3, h4⟩)))
      · exact Or.inr (Or.inr (Or.inr (Or.inr ⟨rfl, Or.inl rfl, h2, h3, h4⟩)))
    | some v =>
      dsimp only
      by_cases hv : v = ""
      · subst hv
        rw [if_pos rfl]
        rcases miss (Or.inr hc) with ⟨err, -, h2, h3, h4⟩ | ⟨-, h2, h3, h4⟩
        · exact Or.inr (Or.inr (Or.inr (Or.inl ⟨err, rfl, Or.inr rfl, h2, h3, h4⟩)))
        · exact Or.inr (Or.inr (Or.inr (Or.inr ⟨rfl, Or.inr rfl, h2, h3, h4⟩)))
      · rw [if_neg hv]
        cases hp : JSON.parse v with
        | ok j => exact Or.inr (Or.inl ⟨v, j, rfl, rfl, hv, hp, rfl, rfl⟩)
        | error e => exact Or.inr (Or.inr (Or.inl ⟨v, e, rfl, rfl, hv, hp, rfl, rfl⟩))

/-- The destructuring of line 6 succeeds on every body that is neither
`undefined` nor `null`. -/
theorem destructureBody_ok (b : JSON) (hb : b ≠ JSON.null) :
    ∃ product, destructureBody (some b) = .ok product := by
  cases b <;> simp [destructureBody, JSON.getMember] at hb ⊢

/-- C6, as amended.  On every write path (`createProduct`, `updateProduct`,
`deleteProduct`), for every request the handler can read, every answer of
the cache store and every cache: the first thing the handler does is to
delete `products:list`.  If the deletion succeeds, the handler then sends a
success response and nothing else, and leaves the cache with that key
deleted; if the deletion fails, the handler hands that error to `next`,
sends no response and leaves the cache as it was.  The deletion of
`products:list` is the only command it sends to the cache, and every other
key is left as it was. -/
theorem write_handlers_delete_then_respond (c : Call) (cache : Cache)
    (hw : c.handler.isWrite = true) (hr : c.readable) :
    (c.run cache).effects.head? = some (HttpEffect.cacheDel cacheKey) ∧
    (c.outcome.del = none →
      ∃ res, (c.run cache).effects = [.cacheDel cacheKey, .respond res] ∧
        isSuccess (.respond res) = true ∧
        (c.run cache).cache = cache.del cacheKey ∧ (c.run cache).cache cacheKey = none) ∧
    (∀ err, c.outcome.del = some err →
      (c.run cache).effects = [.cacheDel cacheKey, .next (.library err)] ∧
      (c.run cache).succeeded = false ∧ (c.run cache).cache = cache) ∧
    (∀ e ∈ (c.run cache).effects, isCacheWrite e = true → e = HttpEffect.cacheDel cacheKey) ∧
    (∀ k, k ≠ cacheKey → (c.run cache).cache k = cache k) := by
  rcases write_run_shape c cache hw with ⟨e, hc, he⟩ | ⟨err, hd, hc, he⟩ | ⟨res, hd, hc, he, hs, -⟩
  · exfalso
    obtain ⟨handler, req, o⟩ := c
    cases handler
    case getProducts => simp [Handler.isWrite] at hw
    case createProduct =>
      obtain ⟨b, hb, hnull⟩ := hr rfl
      simp only at hb
      obtain ⟨product, hp⟩ := destructureBody_ok b hnull
      simp only [Call.run, createProduct, hb, hp] at he
      cases ho : o.del <;> simp [ho] at he
    case updateProduct =>
      simp only [Call.run, updateProduct] at he
      cases ho : o.del <;> simp [ho] at he
    case deleteProduct =>
      simp only [Call.run, deleteProduct] at he
      cases ho : o.del <;> simp [ho] at he
  · refine ⟨by simp [he], ?_, ?_, ?_, ?_⟩
    · intro hnone
      simp [hd] at hnone
    · intro err1 herr
      rw [hd] at herr
      cases herr
      exact ⟨he, by simp [HandlerRun.succeeded, he, isSuccess], hc⟩
    · simp [he, isCacheWrite]
    · simp [hc]
  · refine ⟨by simp [he], ?_, ?_, ?_, ?_⟩
    · intro _
      exact ⟨res, he, hs, hc, by simp [hc, Cache.del]⟩
    · intro err herr
      simp [hd] at herr
    · simp [he, isCacheWrite]
    · intro k hk
      simp [hc, Cache.del, hk]

/-- Witness of C6 as amended: `createProduct` with a body, on a cache that
holds the list, with the store answering: the deletion, then the response
201, and the key is gone. -/
theorem write_handlers_delete_then_respond_witness :
    Handler.isWrite .createProduct = true ∧
    (Call.run ⟨.createProduct, ⟨some (.obj [("name", .str "pen")]), []⟩, ⟨none, none, none⟩⟩
        (Cache.setEx (fun _ => none) cacheKey 3600 "[]")).effects.head?
      = some (HttpEffect.cacheDel cacheKey) ∧
    (Call.run ⟨.createProduct, ⟨some (.obj [("name", .str "pen")]), []⟩, ⟨none, none, none⟩⟩
        (Cache.setEx (fun _ => none) cacheKey 3600 "[]")).effects
      = [.cacheDel cacheKey,
         .respond { status := 201, success := true, message := some "Product created",
                    product := some { id := 1, name := some (.str "pen"), price := none,
                                      quantity := none, description := none },
                    products := none, fromCache := none }] ∧
    (Cache.setEx (fun _ => none) cacheKey 3600 "[]") cacheKey = some ⟨"[]", 3600⟩ ∧
    (Call.run ⟨.createProduct, ⟨some (.obj [("name", .str "pen")]), []⟩, ⟨none, none, none⟩⟩
        (Cache.setEx (fun _ => none) cacheKey 3600 "[]")).cache cacheKey = none :=
  ⟨rfl,
    (write_handlers_delete_then_respond
      ⟨.createProduct, ⟨some (.obj [("name", .str "pen")]), []⟩, ⟨none, none, none⟩⟩
      (Cache.setEx (fun _ => none) cacheKey 3600 "[]") rfl
      (fun _ => ⟨.obj [("name", .str "pen")], rfl, by decide⟩)).1,
    by decide, by decide, by decide⟩

/-- C6 as stated fails for `createProduct` on a request without body: the
destructuring of line 6 throws, the handler hands the `TypeError` to `next`,
sends the cache no deletion, and the cached list stays. -/
theorem createProduct_without_body_counterexample :
    (createProduct ⟨none, []⟩ ⟨none, none, none⟩
        (Cache.setEx (fun _ => none) cacheKey 3600 "[]")).effects
      = [.next (.typeError "Cannot destructure property of undefined")] ∧
    HttpEffect.cacheDel cacheKey ∉ (createProduct ⟨none, []⟩ ⟨none, none, none⟩
        (Cache.setEx (fun _ => none) cacheKey 3600 "[]")).effects ∧
    (createProduct ⟨none, []⟩ ⟨none, none, none⟩
        (Cache.setEx (fun _ => none) cacheKey 3600 "[]")).cache cacheKey = some ⟨"[]", 3600⟩ := by
  decide

/-- C7, as amended.  With the cache store answering: when `products:list`
is absent, `getProducts` recomputes the view, stores its JSON text under
`products:list` for 3600 seconds and responds 200 with that view, not marked
`fromCache`; when `products:list` holds a value `v` that is valid JSON, it
sends the cache no write, leaves the cache as it was and responds 200 with
`products` the value `v` deserializes to and `fromCache: true`. -/
theorem getProducts_read_path (req : Request) (o : CacheOutcome) (cache : Cache)
    (hget : o.get = none) :
    (cache.get cacheKey = none → o.setEx = none →
      (getProducts req o cache).effects = [.cacheGet cacheKey,
        .cacheSetEx cacheKey 3600 (JSON.stringify (.arr [])),
        .respond { status := 200, success := true, message := none, product := none,
                   products := some (.arr []), fromCache := none }] ∧
      (getProducts req o cache).cache cacheKey = some ⟨JSON.stringify (.arr []), 3600⟩ ∧
      (∀ k, k ≠ cacheKey → (getProducts req o cache).cache k = cache k)) ∧
    (∀ v j, cache.get cacheKey = some v → JSON.parse v = .ok j →
      (getProducts req o cache).effects = [.cacheGet cacheKey,
        .respond { status := 200, success := true, message := none, product := none,
                   products := some j, fromCache := some true }] ∧
      (∀ e ∈ (getProducts req o cache).effects, isCacheWrite e = false) ∧
      (getProducts req o cache).cache = cache) := by
  constructor
  · intro habs hset
    rcases getProducts_shape req o cache with
      ⟨err, h, -⟩ | ⟨v, j, -, h, -⟩ | ⟨v, e, -, h, -⟩ | ⟨err, -, -, h, -⟩ | ⟨-, -, -, hc, he⟩
    · simp [hget] at h
    · simp [habs] at h
    · simp [habs] at h
    · simp [hset] at h
    · refine ⟨he, ?_, ?_⟩
      · simp [hc, Cache.setEx]
      · intro k hk; simp [hc, Cache.setEx, hk]
  · intro v j hv hj
    have hne : v ≠ "" := by
      intro h
      rw [h, parse_empty] at hj
      cases hj
    rcases getProducts_shape req o cache with
      ⟨err, h, -⟩ | ⟨v1, j1, -, h1, -, h2, hc, he⟩ | ⟨v1, e, -, h1, -, h2, -⟩ |
      ⟨err, -, h, -⟩ | ⟨-, h, -⟩
    · simp [hget] at h
    · rw [hv] at h1
      cases h1
      rw [hj] at h2
      cases h2
      refine ⟨he, ?_, hc⟩
      simp [he, isCacheWrite]
    · rw [hv] at h1
      cases h1
      rw [hj] at h2
      cases h2
    · rcases h with h | h <;> simp [hv] at h
      exact absurd h hne
    · rcases h with h | h <;> simp [hv] at h
      exact absurd h hne

/-- Witness of C7 as amended: a hit on the cached text `[]`. -/
theorem getProducts_read_path_witness :
    (getProducts ⟨none, []⟩ ⟨none, none, none⟩
        (Cache.setEx (fun _ => none) cacheKey 3600 "[]")).effects
      = [.cacheGet cacheKey,
         .respond { status := 200, success := true, message := none, product := none,
                    products := some (.arr []), fromCache := some true }] :=
  ((getProducts_read_path ⟨none, []⟩ ⟨none, none, none⟩
      (Cache.setEx (fun _ => none) cacheKey 3600 "[]") rfl).2 "[]" (.arr [])
      (by decide) (by decide)).1

/-- C7 as stated fails for two cached values.  With `products:list` holding
the empty string the handler writes to the cache and its response is not
marked `fromCache`; with it holding the text `not json` the handler sends no
response at all and hands the `SyntaxError` to `next`. -/
theorem getProducts_any_cached_value_counterexample :
    (Cache.setEx (fun _ => none) cacheKey 3600 "").get cacheKey = some "" ∧
    (getProducts ⟨none, []⟩ ⟨none, none, none⟩
        (Cache.setEx (fun _ => none) cacheKey 3600 "")).effects
      = [.cacheGet cacheKey, .cacheSetEx cacheKey 3600 "[]",
         .respond { status := 200, success := true, message := none, product := none,
                    products := some (.arr []), fromCache := none }] ∧
    (Cache.setEx (fun _ => none) cacheKey 3600 "not json").get cacheKey = some "not json" ∧
    (getProducts ⟨none, []⟩ ⟨none, none, none⟩
        (Cache.setEx (fun _ => none) cacheKey 3600 "not json")).effects
      = [.cacheGet cacheKey, .next JSError.syntaxErr] := by
  decide

/-- What one call does to the entry of `products:list`: it deletes it; or it
leaves the whole cache as it was, and is then no successful write; or it is a
`getProducts` that stores the recomputed view and succeeds. -/
theorem call_effect_on_key (X : Call) (c : Cache) :
    (X.handler.isWrite = true ∧ (X.run c).succeeded = true ∧ (X.run c).cache cacheKey = none) ∨
    ((X.run c).cache = c ∧ (X.handler.isWrite = true → (X.run c).succeeded = false)) ∨
    (X.handler = .getProducts ∧
      HttpEffect.cacheSetEx cacheKey 3600 (JSON.stringify (.arr [])) ∈ (X.run c).effects ∧
      (X.run c).succeeded = true ∧
      (X.run c).cache cacheKey = some ⟨JSON.stringify (.arr []), 3600⟩) := by
  by_cases hw : X.handler.isWrite = true
  · rcases write_run_shape X c hw with ⟨e, hc, he⟩ | ⟨err, hd, hc, he⟩ | ⟨res, hd, hc, he, hs, -⟩
    · exact Or.inr (Or.inl ⟨hc, fun _ => by simp [HandlerRun.succeeded, he, isSuccess]⟩)
    · exact Or.inr (Or.inl ⟨hc, fun _ => by simp [HandlerRun.succeeded, he, isSuccess]⟩)
    · refine Or.inl ⟨hw, ?_, ?_⟩
      · simp [HandlerRun.succeeded, he, hs]
      · simp [hc, Cache.del]
  · obtain ⟨handler, req, o⟩ := X
    cases handler <;> simp [Handler.isWrite] at hw
    simp only [Call.run]
    rcases getProducts_shape req o c with
      ⟨err, -, hc, -⟩ | ⟨v, j, -, -, -, -, hc, -⟩ | ⟨v, e, -, -, -, -, hc, -⟩ |
      ⟨err, -, -, -, hc, -⟩ | ⟨-, -, -, hc, he⟩
    · exact Or.inr (Or.inl ⟨hc, by simp [Handler.isWrite]⟩)
    · exact Or.inr (Or.inl ⟨hc, by simp [Handler.isWrite]⟩)
    · exact Or.inr (Or.inl ⟨hc, by simp [Handler.isWrite]⟩)
    · exact Or.inr (Or.inl ⟨hc, by simp [Handler.isWrite]⟩)
    · refine Or.inr (Or.inr ⟨by simp, ?_, ?_, ?_⟩)
      · simp [he]
      · simp [HandlerRun.succeeded, he, isSuccess]
      · simp [hc, Cache.setEx]

/-- A response marked `fromCache` comes from a `getProducts` that found a
non-empty value under `products:list`, and returns what that value
deserializes to. -/
theorem fromCache_response (R : Call) (c : Cache) (res : Response)
    (hmem : HttpEffect.respond res ∈ (R.run c).effects) (hfc : res.fromCache = some true) :
    R.handler = .getProducts ∧
    ∃ v j, c.get cacheKey = some v ∧ v ≠ "" ∧ JSON.parse v = .ok j ∧ res.products = some j := by
  by_cases hw : R.handler.isWrite = true
  · rcases write_run_shape R c hw with ⟨e, -, he⟩ | ⟨err, -, -, he⟩ | ⟨res1, -, -, he, -, hn⟩
    · simp [he] at hmem
    · simp [he] at hmem
    · simp [he] at hmem
      subst hmem
      rw [hn] at hfc
      cases hfc
  · obtain ⟨handler, req, o⟩ := R
    cases handler <;> simp [Handler.isWrite] at hw
    refine ⟨rfl, ?_⟩
    simp only [Call.run] at hmem
    rcases getProducts_shape req o c with
      ⟨err, -, -, he⟩ | ⟨v, j, -, hv, hne, hj, -, he⟩ | ⟨v, e, -, -, -, -, -, he⟩ |
      ⟨err, -, -, -, -, he⟩ | ⟨-, -, -, -, he⟩
    · simp [he] at hmem
    · simp [he] at hmem
      subst hmem
      exact ⟨v, j, hv, hne, hj, rfl⟩
    · simp [he] at hmem
    · simp [he] at hmem
    · simp [he] at hmem
      subst hmem
      cases hfc

/-- Running a sequence extended by one call. -/
theorem runCalls_snoc (c : Cache) (l : List Call) (X : Call) :
    runCalls c (l ++ [X]) = (X.run (runCalls c l)).cache := by
  simp [runCalls, List.foldl_append]

/-- After a cache whose `products:list` is absent, at every point of every
sequence of calls the key is absent or holds the view stored by a
`getProducts` of the sequence, untouched since and with no successful write
after it. -/
theorem fresh_after_absent (c1 : Cache) (h1 : c1 cacheKey = none) (mid : List Call) :
    runCalls c1 mid cacheKey = none ∨
    ∃ mid1 G mid2, mid = mid1 ++ G :: mid2 ∧ G.handler = .getProducts ∧
      HttpEffect.cacheSetEx cacheKey 3600 (JSON.stringify (.arr []))
        ∈ (G.run (runCalls c1 mid1)).effects ∧
      (G.run (runCalls c1 mid1)).succeeded = true ∧
      (∀ p, p <+: mid2 →
        runCalls c1 (mid1 ++ G :: p) cacheKey = some ⟨JSON.stringify (.arr []), 3600⟩) ∧
      (∀ p X s, mid2 = p ++ X :: s → X.handler.isWrite = true →
        (X.run (runCalls c1 (mid1 ++ G :: p))).succeeded = false) := by
  induction mid using List.reverseRecOn with
  | nil => exact Or.inl h1
  | append_singleton mid X ih =>
    rw [runCalls_snoc]
    rcases call_effect_on_key X (runCalls c1 mid) with ⟨-, -, hdel⟩ | ⟨hsame, hnw⟩ | ⟨hg, hset, hs, hc⟩
    · exact Or.inl hdel
    · rcases ih with hnone | ⟨mid1, G, mid2, hmid, hG, hset, hs, hkeep, hnow⟩
      · left
        rw [hsame]
        exact hnone
      · right
        refine ⟨mid1, G, mid2 ++ [X], by simp [hmid], hG, hset, hs, ?_, ?_⟩
        · intro p hp
          rcases List.prefix_concat_iff.mp hp with heq | hp'
          · subst heq
            have : mid1 ++ G :: (mid2 ++ [X]) = mid ++ [X] := by simp [hmid]
            rw [this, runCalls_snoc, hsame, hmid]
            exact hkeep mid2 (List.prefix_refl _)
          · exact hkeep p hp'
        · intro p Y s hsplit hY
          rcases List.eq_nil_or_concat s with hs0 | ⟨s1, Z, hs1⟩
          · subst hs0
            have h2 : mid2 ++ [X] = p ++ [Y] := hsplit
            obtain ⟨hp, hXY⟩ := List.append_inj' h2 rfl
            simp only [List.cons.injEq, and_true] at hXY
            subst hp hXY
            rw [← hmid]
            exact hnw hY
          · subst hs1
            have h2 : mid2 ++ [X] = (p ++ Y :: s1) ++ [Z] := by simp [hsplit]
            obtain ⟨hp, -⟩ := List.append_inj' h2 rfl
            exact hnow p Y s1 hp hY
    · right
      refine ⟨mid, X, [], rfl, hg, hset, hs, ?_, ?_⟩
      · intro p hp
        have : p = [] := List.prefix_nil.mp hp
        subst this
        have : mid ++ [X] = mid ++ X :: [] := rfl
        rw [← this, runCalls_snoc]
        exact hc
      · intro p Y s hsplit
        simp at hsplit

/-- On a cache whose `products:list` is absent a `getProducts` sends no
response marked `fromCache`, and after any sequence of calls a response marked
`fromCache` returns the view stored by a `getProducts` of the sequence. -/
theorem read_after_absent (c1 : Cache) (habs : c1 cacheKey = none) :
    (∀ R : Call, R.handler = .getProducts →
      ∀ res, HttpEffect.respond res ∈ (R.run c1).effects →
        res.fromCache = none ∧ res.products = some (.arr [])) ∧
    (∀ (mid : List Call) (R : Call) (res : Response),
      HttpEffect.respond res ∈ (R.run (runCalls c1 mid)).effects →
      res.fromCache = some true →
      ∃ mid1 G mid2 t, mid = mid1 ++ G :: mid2 ∧ G.handler = .getProducts ∧
        HttpEffect.cacheSetEx cacheKey 3600 t ∈ (G.run (runCalls c1 mid1)).effects ∧
        (G.run (runCalls c1 mid1)).succeeded = true ∧
        (∀ p, p <+: mid2 → runCalls c1 (mid1 ++ G :: p) cacheKey = some ⟨t, 3600⟩) ∧
        (∀ p X s, mid2 = p ++ X :: s → X.handler.isWrite = true →
          (X.run (runCalls c1 (mid1 ++ G :: p))).succeeded = false) ∧
        JSON.parse t = .ok (.arr []) ∧ res.products = some (.arr [])) := by
  constructor
  · intro R hR res hmem
    obtain ⟨handler, req, o⟩ := R
    simp only at hR
    subst hR
    simp only [Call.run] at hmem
    have hget : Cache.get c1 cacheKey = none := by simp [Cache.get, habs]
    rcases getProducts_shape req o c1 with
      ⟨err, -, -, he⟩ | ⟨v, j, -, hv, -⟩ | ⟨v, e, -, hv, -⟩ |
      ⟨err, -, -, -, -, he⟩ | ⟨-, -, -, -, he⟩
    · simp [he] at hmem
    · simp [hget] at hv
    · simp [hget] at hv
    · simp [he] at hmem
    · simp [he] at hmem
      subst hmem
      exact ⟨rfl, rfl⟩
  · intro mid R res hmem hfc
    obtain ⟨-, v, j, hv, hne, hj, hprod⟩ := fromCache_response R _ res hmem hfc
    rcases fresh_after_absent _ habs mid with
      hnone | ⟨mid1, G, mid2, hmid, hG, hset, hs, hkeep, hnow⟩
    · simp [Cache.get, hnone] at hv
    · have hentry := hkeep mid2 (List.prefix_refl _)
      rw [← hmid] at hentry
      simp only [Cache.get, hentry, Option.some.injEq] at hv
      subst hv
      have hparse : JSON.parse (JSON.stringify (.arr [])) = .ok (.arr []) := by decide
      rw [hparse] at hj
      cases hj
      exact ⟨mid1, G, mid2, _, hmid, hG, hset, hs, hkeep, hnow, hparse, hprod⟩

/-- C8. Read-after-write consistency of the cache, for calls run one after
the other.  Let `W` be a write handler that completed successfully on any
cache.  (1) Right after `W` the key `products:list` is absent, and a
`getProducts` run next sends no response marked `fromCache`; it responds with
the recomputed view.  (2) After any sequence `mid` of calls of the four
handlers, a response marked `fromCache` returns the value stored by a
`getProducts` `G` of `mid`, which ran after `W`: the entry `G` stored has
stayed in the cache since, and no write after `G` was successful. -/
theorem read_after_write_consistency (cache : Cache) (W : Call)
    (hW : W.handler.isWrite = true) (hok : (W.run cache).succeeded = true) :
    ((W.run cache).cache cacheKey = none ∧
      ∀ R : Call, R.handler = .getProducts →
        ∀ res, HttpEffect.respond res ∈ (R.run (W.run cache).cache).effects →
          res.fromCache = none ∧ res.products = some (.arr [])) ∧
    (∀ (mid : List Call) (R : Call) (res : Response),
      HttpEffect.respond res ∈ (R.run (runCalls (W.run cache).cache mid)).effects →
      res.fromCache = some true →
      ∃ mid1 G mid2 t, mid = mid1 ++ G :: mid2 ∧ G.handler = .getProducts ∧
        HttpEffect.cacheSetEx cacheKey 3600 t
          ∈ (G.run (runCalls (W.run cache).cache mid1)).effects ∧
        (G.run (runCalls (W.run cache).cache mid1)).succeeded = true ∧
        (∀ p, p <+: mid2 →
          runCalls (W.run cache).cache (mid1 ++ G :: p) cacheKey = some ⟨t, 3600⟩) ∧
        (∀ p X s, mid2 = p ++ X :: s → X.handler.isWrite = true →
          (X.run (runCalls (W.run cache).cache (mid1 ++ G :: p))).succeeded = false) ∧
        JSON.parse t = .ok (.arr []) ∧ res.products = some (.arr [])) := by
  have habs : (W.run cache).cache cacheKey = none := by
    rcases write_run_shape W cache hW with ⟨e, -, he⟩ | ⟨err, -, -, he⟩ | ⟨res, -, hc, -⟩
    · simp [HandlerRun.succeeded, he, isSuccess] at hok
    · simp [HandlerRun.succeeded, he, isSuccess] at hok
    · simp [hc, Cache.del]
  exact ⟨⟨habs, (read_after_absent _ habs).1⟩, (read_after_absent _ habs).2⟩

/-- Witness of C8: a successful `updateProduct` on a cache that holds a
list, followed by a read. -/
theorem read_after_write_consistency_witness :
    (Call.run ⟨.updateProduct, ⟨none, [("id", "1")]⟩, ⟨none, none, none⟩⟩
        (Cache.setEx (fun _ => none) cacheKey 3600 "[1]")).cache cacheKey = none ∧
    ∀ R : Call, R.handler = .getProducts →
      ∀ res, HttpEffect.respond res ∈ (R.run
          (Call.run ⟨.updateProduct, ⟨none, [("id", "1")]⟩, ⟨none, none, none⟩⟩
            (Cache.setEx (fun _ => none) cacheKey 3600 "[1]")).cache).effects →
        res.fromCache = none ∧ res.products = some (.arr []) :=
  (read_after_write_consistency (Cache.setEx (fun _ => none) cacheKey 3600 "[1]")
    ⟨.updateProduct, ⟨none, [("id", "1")]⟩, ⟨none, none, none⟩⟩ rfl (by decide)).1

/-! ## Part 8. The round trip of a task payload -/

/-! ### Characters -/

/-- The code point of the character made from a scalar value. -/
theorem char_toNat_ofNat (n : Nat) (h : n < 0xD800 ∨ (0xDFFF < n ∧ n < 0x110000)) :
    (Char.ofNat n).toNat = n := by
  unfold Char.ofNat
  rw [dif_pos h]
  rfl

/-- The code point of a character is a scalar value. -/
theorem char_valid (c : Char) : c.toNat < 0xD800 ∨ (0xDFFF < c.toNat ∧ c.toNat < 0x110000) := by
  have h := c.valid
  unfold UInt32.isValidChar at h
  exact h

/-- Characters with the same code point are equal. -/
theorem char_eq_of_toNat_eq {c d : Char} (h : c.toNat = d.toNat) : c = d := by
  rw [← Char.ofNat_toNat c, ← Char.ofNat_toNat d, h]

/-- The character made from the code point of `c` is `c`. -/
theorem char_ofNat_eq {c : Char} {n : Nat} (h : n = c.toNat) : Char.ofNat n = c := by
  rw [h, Char.ofNat_toNat]

/-! ### UTF-8 -/

/-- Decoding one byte below 0x80. -/
theorem utf8Decode_one (b0 : Nat) (rest : List Nat) (h0 : b0 < 0x80) :
    utf8DecodeFrom Utf8State.init (b0 :: rest)
      = Char.ofNat b0 :: utf8DecodeFrom Utf8State.init rest := by
  simp [utf8DecodeFrom, Utf8State.init, utf8Lead, h0]

/-- Decoding a well-formed sequence of two bytes. -/
theorem utf8Decode_two (b0 b1 : Nat) (rest : List Nat) (h0 : 0xC2 ≤ b0 ∧ b0 ≤ 0xDF)
    (h1 : 0x80 ≤ b1 ∧ b1 ≤ 0xBF) :
    utf8DecodeFrom Utf8State.init (b0 :: b1 :: rest)
      = Char.ofNat ((b0 - 0xC0) * 64 + (b1 - 0x80)) :: utf8DecodeFrom Utf8State.init rest := by
  have h00 : ¬ b0 < 0x80 := by omega
  simp [utf8DecodeFrom, Utf8State.init, utf8Lead, h0, h1, h00]

/-- Decoding a well-formed sequence of three bytes. -/
theorem utf8Decode_three (b0 b1 b2 : Nat) (rest : List Nat) (h0 : 0xE0 ≤ b0 ∧ b0 ≤ 0xEF)
    (h1 : (if b0 = 0xE0 then 0xA0 else 0x80) ≤ b1 ∧ b1 ≤ (if b0 = 0xED then 0x9F else 0xBF))
    (h2 : 0x80 ≤ b2 ∧ b2 ≤ 0xBF) :
    utf8DecodeFrom Utf8State.init (b0 :: b1 :: b2 :: rest)
      = Char.ofNat (((b0 - 0xE0) * 64 + (b1 - 0x80)) * 64 + (b2 - 0x80))
          :: utf8DecodeFrom Utf8State.init rest := by
  have h00 : ¬ b0 < 0x80 := by omega
  have h01 : ¬ (0xC2 ≤ b0 ∧ b0 ≤ 0xDF) := by omega
  simp [utf8DecodeFrom, Utf8State.init, utf8Lead, h0, h1, h2, h00, h01]

/-- Decoding a well-formed sequence of four bytes. -/
theorem utf8Decode_four (b0 b1 b2 b3 : Nat) (rest : List Nat) (h0 : 0xF0 ≤ b0 ∧ b0 ≤ 0xF4)
    (h1 : (if b0 = 0xF0 then 0x90 else 0x80) ≤ b1 ∧ b1 ≤ (if b0 = 0xF4 then 0x8F else 0xBF))
    (h2 : 0x80 ≤ b2 ∧ b2 ≤ 0xBF) (h3 : 0x80 ≤ b3 ∧ b3 ≤ 0xBF) :
    utf8DecodeFrom Utf8State.init (b0 :: b1 :: b2 :: b3 :: rest)
      = Char.ofNat ((((b0 - 0xF0) * 64 + (b1 - 0x80)) * 64 + (b2 - 0x80)) * 64 + (b3 - 0x80))
          :: utf8DecodeFrom Utf8State.init rest := by
  have h00 : ¬ b0 < 0x80 := by omega
  have h01 : ¬ (0xC2 ≤ b0 ∧ b0 ≤ 0xDF) := by omega
  have h02 : ¬ (0xE0 ≤ b0 ∧ b0 ≤ 0xEF) := by omega
  simp [utf8DecodeFrom, Utf8State.init, utf8Lead, h0, h1, h2, h3, h00, h01, h02]

/-- Decoding the bytes of one character gives the character back. -/
theorem utf8Decode_encodeChar (c : Char) (rest : List Nat) :
    utf8DecodeFrom Utf8State.init (utf8EncodeChar c ++ rest)
      = c :: utf8DecodeFrom Utf8State.init rest := by
  have hv := char_valid c
  unfold utf8EncodeChar
  simp only []
  split_ifs with h1 h2 h3
  · rw [List.singleton_append, utf8Decode_one _ _ h1, Char.ofNat_toNat]
  · rw [List.cons_append, List.singleton_append,
      utf8Decode_two _ _ _ (by omega) (by omega), char_ofNat_eq (c := c) (by omega)]
  · rw [List.cons_append, List.cons_append, List.singleton_append,
      utf8Decode_three _ _ _ _ (by omega) (by split_ifs <;> omega) (by omega),
      char_ofNat_eq (c := c) (by omega)]
  · rw [List.cons_append, List.cons_append, List.cons_append, List.singleton_append,
      utf8Decode_four _ _ _ _ _ (by omega) (by split_ifs <;> omega) (by omega) (by omega),
      char_ofNat_eq (c := c) (by omega)]

/-- Decoding the UTF-8 encoding of a string gives the string back. -/
theorem utf8Decode_encode (s : List Char) : utf8Decode (s.flatMap utf8EncodeChar) = s := by
  unfold utf8Decode
  induction s with
  | nil => simp [utf8DecodeFrom, Utf8State.init]
  | cons c s ih => rw [List.flatMap_cons, utf8Decode_encodeChar, ih]

/-- The method `toString` undoes `Buffer.from` on every string. -/
theorem buffer_toString_fromString (s : String) : Buffer.toString (Buffer.fromString s) = s := by
  unfold Buffer.toString Buffer.fromString
  rw [utf8Decode_encode]

/-! ### Strings -/

/-- Reading a hexadecimal digit back. -/
theorem hexVal_hexChar (d : Nat) (h : d < 16) : hexVal (hexChar d) = some d := by
  unfold hexChar hexVal
  by_cases hd : d < 10
  · rw [if_pos hd, char_toNat_ofNat _ (by omega), if_pos (by omega)]
    congr 1
    omega
  · rw [if_neg hd, char_toNat_ofNat _ (by omega), if_neg (by omega), if_pos (by omega)]
    congr 1
    omega

/-- Reading the four hexadecimal digits of a code unit back. -/
theorem hexUnit_hex (n : Nat) (h : n < 65536) :
    hexUnit (hexChar (n / 4096 % 16)) (hexChar (n / 256 % 16)) (hexChar (n / 16 % 16))
      (hexChar (n % 16)) = some n := by
  unfold hexUnit
  rw [hexVal_hexChar _ (by omega), hexVal_hexChar _ (by omega), hexVal_hexChar _ (by omega),
    hexVal_hexChar _ (by omega)]
  simp only [Option.some.injEq]
  omega

/-- Reading back one character of a quoted string. -/
theorem parseStringBody_quoteChar (c : Char) (tail : List Char) :
    parseStringBody none (quoteChar c ++ tail) = consChar c (parseStringBody none tail) := by
  unfold quoteChar
  split_ifs with h1 h2 h3 h4 h5 h6 h7 h8
  · have hc : c = '"' := char_eq_of_toNat_eq h1
    subst hc
    rw [parseStringBody.eq_def]
    simp [flushSurrogate]
  · have hc : c = '\\' := char_eq_of_toNat_eq h2
    subst hc
    rw [parseStringBody.eq_def]
    simp [flushSurrogate]
  · have hc : Char.ofNat 8 = c := char_ofNat_eq h3.symm
    rw [parseStringBody.eq_def]
    simp [flushSurrogate]
    rw [hc]
  · have hc : Char.ofNat 9 = c := char_ofNat_eq h4.symm
    rw [parseStringBody.eq_def]
    simp [flushSurrogate]
    rw [hc]
  · have hc : Char.ofNat 10 = c := char_ofNat_eq h5.symm
    rw [parseStringBody.eq_def]
    simp [flushSurrogate]
    rw [hc]
  · have hc : Char.ofNat 12 = c := char_ofNat_eq h6.symm
    rw [parseStringBody.eq_def]
    simp [flushSurrogate]
    rw [hc]
  · have hc : Char.ofNat 13 = c := char_ofNat_eq h7.symm
    rw [parseStringBody.eq_def]
    simp [flushSurrogate]
    rw [hc]
  · have hu := hexUnit_hex c.toNat (by omega)
    have hs1 : ¬ (0xDC00 ≤ c.toNat ∧ c.toNat ≤ 0xDFFF) := by omega
    have hs2 : ¬ (0xD800 ≤ c.toNat ∧ c.toNat ≤ 0xDBFF) := by omega
    rw [parseStringBody.eq_def]
    simp only [hex4, List.cons_append, List.nil_append]
    simp [flushSurrogate, hu, hs1, hs2]
  · rw [parseStringBody.eq_def]
    simp [flushSurrogate, h1, h2]
    omega

/-- Reading back the body of a quoted string up to its closing quote. -/
theorem parseStringBody_quote (s rest : List Char) :
    parseStringBody none (s.flatMap quoteChar ++ '"' :: rest) = some (s, rest) := by
  induction s with
  | nil =>
    rw [parseStringBody.eq_def]
    simp [flushSurrogate]
  | cons c s ih =>
    rw [List.flatMap_cons, List.append_assoc, parseStringBody_quoteChar, ih]
    rfl

/-- The length of a quoted string. -/
theorem quoteString_length (s : List Char) :
    (quoteString s).length = (s.flatMap quoteChar).length + 2 := by
  simp [quoteString]

/-! ### Numbers -/

/-- Reading a decimal digit back. -/
theorem digitVal_digitChar (d : Nat) (h : d < 10) : digitVal (digitChar d) = some d := by
  unfold digitVal digitChar
  rw [char_toNat_ofNat _ (by omega), if_pos (by omega)]
  congr 1
  omega

/-- The code point of a digit character. -/
theorem digitChar_toNat (d : Nat) (h : d < 10) : (digitChar d).toNat = 48 + d := by
  unfold digitChar
  rw [char_toNat_ofNat _ (by omega)]

/-- A character with a digit value lies between `0` and `9`. -/
theorem digitVal_eq_none {c : Char} (h : c.toNat < 48 ∨ 57 < c.toNat) : digitVal c = none := by
  unfold digitVal
  rw [if_neg (by omega)]

/-- A delimiter ends a number. -/
theorem Delim.numEnd {rest : List Char} (h : Delim rest) : NumEnd rest := by
  intro c r hr
  rcases h with h | ⟨c1, r1, h, hc⟩
  · rw [h] at hr
    cases hr
  · rw [h] at hr
    cases hr
    refine ⟨digitVal_eq_none (by omega), by omega, by omega, by omega⟩

/-- Reading a run of digits back, up to a character that is no digit. -/
theorem takeDigits_digits (ds : List Nat) (rest : List Char) (h : ∀ d ∈ ds, d < 10)
    (hrest : ∀ c r, rest = c :: r → digitVal c = none) :
    takeDigits (ds.map digitChar ++ rest) = (ds, rest) := by
  induction ds with
  | nil =>
    cases rest with
    | nil => rfl
    | cons c r => simp [takeDigits, hrest c r rfl]
  | cons d ds ih =>
    have hd := digitVal_digitChar d (h d (List.mem_cons_self _ _))
    have := ih (fun x hx => h x (List.mem_cons_of_mem _ hx))
    simp [takeDigits, hd, this]

/-- Leading zeros are dropped, each moving the decimal point. -/
theorem stripLeading_zeros (m : Nat) (ds : List Nat) (n : Int) :
    JSNumber.stripLeading (List.replicate m 0 ++ ds) n = JSNumber.stripLeading ds (n - m) := by
  induction m generalizing n with
  | zero => simp
  | succ m ih =>
    rw [List.replicate_succ, List.cons_append, JSNumber.stripLeading, if_pos rfl, ih]
    congr 1
    push_cast
    omega

/-- Digits that start with a non-zero digit have no leading zero to drop. -/
theorem stripLeading_nonzero (ds : List Nat) (n : Int) (h : ds.head? ≠ some 0) :
    JSNumber.stripLeading ds n = (ds, n) := by
  cases ds with
  | nil => rfl
  | cons d ds =>
    have hd : d ≠ 0 := by simpa using h
    simp [JSNumber.stripLeading, hd]

/-- Digits that end with a non-zero digit have no trailing zero to drop, also
when zeros are appended. -/
theorem stripTrailing_zeros (m : Nat) (ds : List Nat) (h : ds.getLast? ≠ some 0) :
    JSNumber.stripTrailing (ds ++ List.replicate m 0) = ds := by
  unfold JSNumber.stripTrailing
  rw [List.reverse_append, List.reverse_replicate]
  have h1 : ∀ (k : Nat) (l : List Nat),
      (List.replicate k 0 ++ l).dropWhile (fun d => d == 0) = l.dropWhile (fun d => d == 0) := by
    intro k l
    induction k with
    | zero => simp
    | succ k ih => simp [List.replicate_succ, List.dropWhile, ih]
  rw [h1]
  have h2 : ds.reverse.dropWhile (fun d => d == 0) = ds.reverse := by
    cases hr : ds.reverse with
    | nil => rfl
    | cons x xs =>
      have hx : ds.getLast? = some x := by
        rw [List.getLast?_eq_head?_reverse, hr]
        rfl
      have hx0 : x ≠ 0 := by
        intro h0
        rw [hx, h0] at h
        exact h rfl
      have hb : (x == 0) = false := by simpa using hx0
      simp [List.dropWhile, hb]
  rw [h2, List.reverse_reverse]

/-- A number in normal form is its own normal form. -/
theorem normalize_wf (neg : Bool) (ds : List Nat) (n : Int) (hne : ds ≠ [])
    (hh : ds.head? ≠ some 0) (hl : ds.getLast? ≠ some 0) :
    JSNumber.normalize neg ds n = ⟨neg, ds, n⟩ := by
  unfold JSNumber.normalize
  have h := stripTrailing_zeros 0 ds hl
  simp only [List.replicate_zero, List.append_nil] at h
  simp [stripLeading_nonzero ds n hh, h, hne]

/-- The value of digits followed by one more digit. -/
theorem decimalValue_append (ds : List Nat) (d : Nat) :
    decimalValue (ds ++ [d]) = decimalValue ds * 10 + d := by
  simp [decimalValue, List.foldl_append]

/-- The decimal digits of a number: at least one, each below ten, and they
write the number. -/
theorem natDigitsAux_spec (fuel n : Nat) (h : n < fuel) :
    natDigitsAux fuel n ≠ [] ∧ (∀ d ∈ natDigitsAux fuel n, d < 10) ∧
    decimalValue (natDigitsAux fuel n) = n := by
  induction fuel generalizing n with
  | zero => omega
  | succ fuel ih =>
    unfold natDigitsAux
    by_cases hn : n < 10
    · rw [if_pos hn]
      refine ⟨by simp, by simpa using hn, by simp [decimalValue]⟩
    · rw [if_neg hn]
      obtain ⟨-, h2, h3⟩ := ih (n / 10) (by omega)
      refine ⟨by simp, ?_, ?_⟩
      · intro d hd
        rcases List.mem_append.mp hd with hd | hd
        · exact h2 d hd
        · simp at hd
          omega
      · rw [decimalValue_append, h3]
        omega

/-- The decimal digits of a number write the number. -/
theorem natDigits_spec (n : Nat) :
    natDigits n ≠ [] ∧ (∀ d ∈ natDigits n, d < 10) ∧ decimalValue (natDigits n) = n :=
  natDigitsAux_spec (n + 1) n (by omega)

/-- No fraction where the text does not go on with a point. -/
theorem parseFraction_none (rest : List Char) (h : ∀ c r, rest = c :: r → c.toNat ≠ 46) :
    parseFraction rest = some ([], rest) := by
  cases rest with
  | nil => rfl
  | cons c r => simp [parseFraction, h c r rfl]

/-- No exponent where the text does not go on with `e` or `E`. -/
theorem parseExponent_none (rest : List Char)
    (h : ∀ c r, rest = c :: r → c.toNat ≠ 101 ∧ c.toNat ≠ 69) :
    parseExponent rest = some (0, rest) := by
  cases rest with
  | nil => rfl
  | cons c r => simp [parseExponent, h c r rfl]

/-- Reading a fraction back. -/
theorem parseFraction_digits (fs : List Nat) (rest : List Char) (hne : fs ≠ [])
    (h : ∀ d ∈ fs, d < 10) (hrest : ∀ c r, rest = c :: r → digitVal c = none) :
    parseFraction ('.' :: (fs.map digitChar ++ rest)) = some (fs, rest) := by
  have h46 : '.'.toNat = 46 := by decide
  simp only [parseFraction, h46, if_true, takeDigits_digits fs rest h hrest]

/-- Reading the digits of an exponent back. -/
theorem parseExponentDigits_digits (neg : Bool) (m : Nat) (rest : List Char)
    (hrest : ∀ c r, rest = c :: r → digitVal c = none) :
    parseExponentDigits neg ((natDigits m).map digitChar ++ rest)
      = some (if neg then -(m : Int) else (m : Int), rest) := by
  obtain ⟨h1, h2, h3⟩ := natDigits_spec m
  unfold parseExponentDigits
  rw [takeDigits_digits _ rest h2 hrest]
  cases hd : natDigits m with
  | nil => exact absurd hd h1
  | cons d ds =>
    simp only []
    rw [← hd, h3]

/-- Reading an exponent back. -/
theorem parseExponent_digits (e : Int) (rest : List Char)
    (hrest : ∀ c r, rest = c :: r → digitVal c = none) :
    parseExponent ('e' :: (if e < 0 then '-' else '+') ::
        ((natDigits e.natAbs).map digitChar ++ rest)) = some (e, rest) := by
  have h101 : 'e'.toNat = 101 := by decide
  have h45 : '-'.toNat = 45 := by decide
  have h43 : '+'.toNat = 43 := by decide
  by_cases he : e < 0
  · simp only [he, if_true, parseExponent, h101, h45, true_or,
      parseExponentDigits_digits _ _ _ hrest]
    congr 2
    omega
  · simp only [he, if_false, parseExponent, h101, h43, true_or, if_true,
      parseExponentDigits_digits _ _ _ hrest]
    simp only [show ¬ (43 = 45) by decide, if_false, Bool.false_eq_true]
    congr 2
    omega

/-- The parts of an unsigned literal put together. -/
theorem parseUnsigned_parts (neg : Bool) (cs r1 r2 r3 : List Char) (d : Nat) (ds fs : List Nat)
    (e : Int) (h1 : takeDigits cs = (d :: ds, r1)) (h0 : ¬ (d = 0 ∧ ds ≠ []))
    (h2 : parseFraction r1 = some (fs, r2)) (h3 : parseExponent r2 = some (e, r3)) :
    parseUnsigned neg cs
      = some (JSNumber.normalize neg (d :: ds ++ fs) (((d :: ds).length : Int) + e), r3) := by
  unfold parseUnsigned
  rw [h1]
  simp only []
  rw [if_neg h0, h2]
  simp only []
  rw [h3]

/-- The literal `0` is read as zero. -/
theorem parseUnsigned_zero (neg : Bool) (rest : List Char) (hrest : NumEnd rest) :
    parseUnsigned neg ('0' :: rest) = some (JSNumber.zero, rest) := by
  have h1 : takeDigits ('0' :: rest) = ([0], rest) :=
    takeDigits_digits [0] rest (by simp) (fun c r h => (hrest c r h).1)
  rw [parseUnsigned_parts neg _ rest rest rest 0 [] [] 0 h1 (by simp)
    (parseFraction_none rest (fun c r h => (hrest c r h).2.1))
    (parseExponent_none rest (fun c r h => (hrest c r h).2.2))]
  rfl

/-- Digits followed by zeros are read back (`k ≤ n ≤ 21`). -/
theorem parseUnsigned_integer (neg : Bool) (d0 : Nat) (tl : List Nat) (m : Nat)
    (rest : List Char) (hd : ∀ d ∈ d0 :: tl, d < 10) (h0 : d0 ≠ 0)
    (hl : (d0 :: tl).getLast? ≠ some 0) (hrest : NumEnd rest) :
    parseUnsigned neg ((d0 :: tl).map digitChar ++ List.replicate m '0' ++ rest)
      = some (⟨neg, d0 :: tl, ((d0 :: tl).length + m : Nat)⟩, rest) := by
  have hz : List.replicate m '0' = (List.replicate m 0).map digitChar := by
    rw [List.map_replicate]
    rfl
  have h1 : takeDigits ((d0 :: tl).map digitChar ++ List.replicate m '0' ++ rest)
      = (d0 :: (tl ++ List.replicate m 0), rest) := by
    rw [hz, ← List.map_append]
    exact takeDigits_digits _ rest
      (by
        intro d hmem
        rcases List.mem_append.mp hmem with h | h
        · exact hd d h
        · rw [List.eq_of_mem_replicate h]
          omega)
      (fun c r h => (hrest c r h).1)
  rw [parseUnsigned_parts neg _ rest rest rest d0 (tl ++ List.replicate m 0) [] 0 h1
    (by simp [h0]) (parseFraction_none rest (fun c r h => (hrest c r h).2.1))
    (parseExponent_none rest (fun c r h => (hrest c r h).2.2))]
  unfold JSNumber.normalize
  have hs : JSNumber.stripLeading (d0 :: (tl ++ List.replicate m 0) ++ [])
      (((d0 :: (tl ++ List.replicate m 0)).length : Int) + 0)
      = (d0 :: tl ++ List.replicate m 0, (((d0 :: tl).length + m : Nat) : Int)) := by
    rw [stripLeading_nonzero _ _ (by simp [h0])]
    simp
    omega
  rw [hs]
  simp only []
  rw [stripTrailing_zeros m (d0 :: tl) hl]
  simp

/-- Digits with a decimal point inside are read back (`0 < n < k`). -/
theorem parseUnsigned_point (neg : Bool) (ip fp : List Nat) (rest : List Char)
    (hd : ∀ d ∈ ip ++ fp, d < 10) (hi : ip ≠ []) (hf : fp ≠ [])
    (h0 : (ip ++ fp).head? ≠ some 0) (hl : (ip ++ fp).getLast? ≠ some 0) (hrest : NumEnd rest) :
    parseUnsigned neg (ip.map digitChar ++ '.' :: (fp.map digitChar ++ rest))
      = some (⟨neg, ip ++ fp, (ip.length : Nat)⟩, rest) := by
  obtain ⟨d0, tl, rfl⟩ := List.exists_cons_of_ne_nil hi
  have hd0 : d0 ≠ 0 := by simpa using h0
  have h1 : takeDigits ((d0 :: tl).map digitChar ++ '.' :: (fp.map digitChar ++ rest))
      = (d0 :: tl, '.' :: (fp.map digitChar ++ rest)) :=
    takeDigits_digits _ _ (fun d h => hd d (List.mem_append_left _ h))
      (fun c r h => by
        cases h
        decide)
  rw [parseUnsigned_parts neg _ _ rest rest d0 tl fp 0 h1 (by simp [hd0])
    (parseFraction_digits fp rest hf (fun d h => hd d (List.mem_append_right _ h))
      (fun c r h => (hrest c r h).1))
    (parseExponent_none rest (fun c r h => (hrest c r h).2.2))]
  rw [normalize_wf neg _ _ (by simp) h0 hl]
  simp

/-- A fraction below one is read back (`-6 < n ≤ 0`). -/
theorem parseUnsigned_small (neg : Bool) (ds : List Nat) (m : Nat) (rest : List Char)
    (hd : ∀ d ∈ ds, d < 10) (hne : ds ≠ [])
    (h0 : ds.head? ≠ some 0) (hl : ds.getLast? ≠ some 0) (hrest : NumEnd rest) :
    parseUnsigned neg ('0' :: '.' :: (List.replicate m '0' ++ ds.map digitChar ++ rest))
      = some (⟨neg, ds, -(m : Int)⟩, rest) := by
  have hz : List.replicate m '0' = (List.replicate m 0).map digitChar := by
    rw [List.map_replicate]
    rfl
  have h1 : takeDigits ('0' :: '.' :: (List.replicate m '0' ++ ds.map digitChar ++ rest))
      = ([0], '.' :: (List.replicate m '0' ++ ds.map digitChar ++ rest)) :=
    takeDigits_digits [0] _ (by simp)
      (fun c r h => by
        cases h
        decide)
  have h2 : parseFraction ('.' :: (List.replicate m '0' ++ ds.map digitChar ++ rest))
      = some (List.replicate m 0 ++ ds, rest) := by
    rw [hz, ← List.map_append]
    exact parseFraction_digits _ rest (by simp [hne])
      (by
        intro d hmem
        rcases List.mem_append.mp hmem with h | h
        · rw [List.eq_of_mem_replicate h]
          omega
        · exact hd d h)
      (fun c r h => (hrest c r h).1)
  rw [parseUnsigned_parts neg _ _ rest rest 0 [] (List.replicate m 0 ++ ds) 0 h1 (by simp) h2
    (parseExponent_none rest (fun c r h => (hrest c r h).2.2))]
  unfold JSNumber.normalize
  have hs : JSNumber.stripLeading (0 :: [] ++ (List.replicate m 0 ++ ds))
      ((([0] : List Nat).length : Int) + 0) = (ds, -(m : Int)) := by
    have : (0 :: [] ++ (List.replicate m 0 ++ ds)) = List.replicate (m + 1) 0 ++ ds := by
      simp [List.replicate_succ]
    rw [this, stripLeading_zeros, stripLeading_nonzero _ _ h0]
    congr 1
    push_cast
    simp
  rw [hs]
  simp only []
  have ht := stripTrailing_zeros 0 ds hl
  simp only [List.replicate_zero, List.append_nil] at ht
  rw [ht]
  simp [hne]

/-- A literal in exponent form is read back. -/
theorem parseUnsigned_exponent (neg : Bool) (d0 : Nat) (tl : List Nat) (e : Int)
    (rest : List Char) (hd : ∀ d ∈ d0 :: tl, d < 10) (h0 : d0 ≠ 0)
    (hl : (d0 :: tl).getLast? ≠ some 0) (hrest : NumEnd rest) :
    parseUnsigned neg
        ((match (d0 :: tl).map digitChar with
          | [] => []
          | [d] => d :: 'e' :: (if e < 0 then '-' else '+') :: (natDigits e.natAbs).map digitChar
          | d :: r => d :: '.' :: (r ++ 'e' :: (if e < 0 then '-' else '+') ::
              (natDigits e.natAbs).map digitChar)) ++ rest)
      = some (⟨neg, d0 :: tl, 1 + e⟩, rest) := by
  have hexp := parseExponent_digits e rest (fun c r h => (hrest c r h).1)
  cases tl with
  | nil =>
    simp only [List.map_cons, List.map_nil, List.cons_append, List.nil_append]
    have h1 : takeDigits (digitChar d0 :: 'e' :: (if e < 0 then '-' else '+') ::
        ((natDigits e.natAbs).map digitChar ++ rest))
        = ([d0], 'e' :: (if e < 0 then '-' else '+') ::
            ((natDigits e.natAbs).map digitChar ++ rest)) :=
      takeDigits_digits [d0] _ hd
        (fun c r h => by
          cases h
          decide)
    rw [parseUnsigned_parts neg _ _ _ rest d0 [] [] e h1 (by simp)
      (parseFraction_none _ (fun c r h => by
        cases h
        decide)) hexp]
    rw [normalize_wf neg _ _ (by simp) (by simpa using h0) (by simpa using hl)]
    simp
  | cons d1 tl =>
    have htxt : (match (d0 :: d1 :: tl).map digitChar with
          | [] => []
          | [d] => d :: 'e' :: (if e < 0 then '-' else '+') :: (natDigits e.natAbs).map digitChar
          | d :: r => d :: '.' :: (r ++ 'e' :: (if e < 0 then '-' else '+') ::
              (natDigits e.natAbs).map digitChar)) ++ rest
        = [d0].map digitChar ++ '.' :: ((d1 :: tl).map digitChar ++
            'e' :: (if e < 0 then '-' else '+') ::
              ((natDigits e.natAbs).map digitChar ++ rest)) := by
      simp
    rw [htxt]
    have h1 := takeDigits_digits [d0] ('.' :: ((d1 :: tl).map digitChar ++
        'e' :: (if e < 0 then '-' else '+') :: ((natDigits e.natAbs).map digitChar ++ rest)))
      (fun d h => hd d (by simp at h; simp [h]))
      (fun c r h => by
        cases h
        decide)
    have h2 := parseFraction_digits (d1 :: tl) ('e' :: (if e < 0 then '-' else '+') ::
        ((natDigits e.natAbs).map digitChar ++ rest)) (by simp)
      (fun d h => hd d (List.mem_cons_of_mem _ h))
      (fun c r h => by
        cases h
        decide)
    rw [parseUnsigned_parts neg _ _ _ rest d0 [] (d1 :: tl) e h1 (by simp) h2 hexp]
    rw [normalize_wf neg _ _ (by simp) (by simpa using h0) (by simpa using hl)]
    simp

/-- The text of a positive number starts with a digit. -/
theorem unsignedText_head (d0 : Nat) (tl : List Nat) (n : Int) (h0 : d0 < 10) :
    ∃ c cs, unsignedText (d0 :: tl) n = c :: cs ∧ 48 ≤ c.toNat ∧ c.toNat ≤ 57 := by
  have hc := digitChar_toNat d0 h0
  unfold unsignedText
  simp only []
  by_cases h1 : ((d0 :: tl).length : Int) ≤ n ∧ n ≤ 21
  · rw [if_pos h1]
    exact ⟨digitChar d0, _, rfl, by omega, by omega⟩
  rw [if_neg h1]
  by_cases h2 : 0 < n ∧ n ≤ 21
  · rw [if_pos h2]
    obtain ⟨m, hm⟩ : ∃ m, n.toNat = m + 1 := ⟨n.toNat - 1, by omega⟩
    rw [hm]
    exact ⟨digitChar d0, _, rfl, by omega, by omega⟩
  rw [if_neg h2]
  by_cases h3 : -6 < n ∧ n ≤ 0
  · rw [if_pos h3]
    exact ⟨'0', _, rfl, by decide, by decide⟩
  rw [if_neg h3]
  cases tl with
  | nil => exact ⟨digitChar d0, _, rfl, by omega, by omega⟩
  | cons d1 tl => exact ⟨digitChar d0, _, rfl, by omega, by omega⟩

/-- The text of a positive number in normal form is read back. -/
theorem parseUnsigned_unsignedText (neg : Bool) (d0 : Nat) (tl : List Nat) (n : Int)
    (rest : List Char) (hd : ∀ d ∈ d0 :: tl, d < 10) (h0 : d0 ≠ 0)
    (hl : (d0 :: tl).getLast? ≠ some 0) (hrest : NumEnd rest) :
    parseUnsigned neg (unsignedText (d0 :: tl) n ++ rest) = some (⟨neg, d0 :: tl, n⟩, rest) := by
  have hk : ((d0 :: tl).length : Int) = (tl.length : Int) + 1 := by simp
  unfold unsignedText
  simp only []
  by_cases h1 : ((d0 :: tl).length : Int) ≤ n ∧ n ≤ 21
  · rw [if_pos h1, parseUnsigned_integer neg d0 tl _ rest hd h0 hl hrest]
    congr 3
    push_cast
    omega
  rw [if_neg h1]
  by_cases h2 : 0 < n ∧ n ≤ 21
  · rw [if_pos h2]
    have hlen : n.toNat < (d0 :: tl).length := by
      simp only [List.length_cons]
      omega
    have hsplit : (d0 :: tl).take n.toNat ++ (d0 :: tl).drop n.toNat = d0 :: tl :=
      List.take_append_drop _ _
    rw [← List.map_take, ← List.map_drop, List.append_assoc, List.cons_append,
      parseUnsigned_point neg _ _ rest (by rw [hsplit]; exact hd)
        (by
          intro h
          have := congrArg List.length h
          simp at this
          omega)
        (by
          intro h
          have := congrArg List.length h
          simp at this
          omega)
        (by rw [hsplit]; simpa using h0) (by rw [hsplit]; exact hl) hrest]
    rw [hsplit]
    congr 3
    simp
    omega
  rw [if_neg h2]
  by_cases h3 : -6 < n ∧ n ≤ 0
  · rw [if_pos h3, List.cons_append, List.cons_append,
      parseUnsigned_small neg (d0 :: tl) _ rest hd (by simp) (by simpa using h0) hl hrest]
    congr 3
    omega
  rw [if_neg h3, parseUnsigned_exponent neg d0 tl (n - 1) rest hd h0 hl hrest]
  congr 3
  omega

/-- The text of a number in normal form is read back. -/
theorem parseNumber_numToString (x : JSNumber) (rest : List Char) (hx : x.WF)
    (hrest : NumEnd rest) : parseNumber (numToString x ++ rest) = some (x, rest) := by
  obtain ⟨neg, digits, n⟩ := x
  obtain ⟨hd, hz, hh, hl⟩ := hx
  simp only at hd hz hh hl
  unfold numToString
  cases digits with
  | nil =>
    obtain ⟨rfl, rfl⟩ := hz rfl
    simp only [if_true, List.cons_append, List.nil_append, parseNumber]
    rw [if_neg (by decide), parseUnsigned_zero false rest hrest]
    rfl
  | cons d0 tl =>
    have h0 : d0 ≠ 0 := by simpa using hh
    have hbody := parseUnsigned_unsignedText neg d0 tl n rest hd h0 hl hrest
    obtain ⟨c, cs, hc, hc1, hc2⟩ := unsignedText_head d0 tl n (hd d0 (List.mem_cons_self _ _))
    simp only [reduceCtorEq, if_false]
    cases neg with
    | true =>
      simp only [if_true, List.cons_append, List.nil_append, parseNumber]
      rw [if_pos (by decide), hbody]
    | false =>
      simp only [Bool.false_eq_true, if_false, List.nil_append]
      rw [hc] at hbody ⊢
      simp only [List.cons_append, parseNumber]
      rw [if_neg (by omega)]
      exact hbody

/-! ### Values -/

/-- White space is skipped only in front of a white space character. -/
theorem skipWs_cons (c : Char) (cs : List Char) (h : isWs c = false) :
    skipWs (c :: cs) = c :: cs := by
  simp [skipWs, h]

/-- A character that is no white space, by its code point. -/
theorem isWs_false {c : Char} (h : 33 ≤ c.toNat) : isWs c = false := by
  unfold isWs
  simp
  omega

/-- The text of a number starts with a minus sign or a digit. -/
theorem numToString_head (x : JSNumber) (hx : x.WF) :
    ∃ c cs, numToString x = c :: cs ∧ (c.toNat = 45 ∨ (48 ≤ c.toNat ∧ c.toNat ≤ 57)) := by
  obtain ⟨neg, digits, n⟩ := x
  obtain ⟨hd, -, -, -⟩ := hx
  simp only at hd
  simp only [numToString]
  cases digits with
  | nil => exact ⟨'0', _, rfl, Or.inr (by decide)⟩
  | cons d0 tl =>
    obtain ⟨c, cs, hc, h1, h2⟩ := unsignedText_head d0 tl n (hd d0 (List.mem_cons_self _ _))
    simp only [reduceCtorEq, if_false]
    cases neg
    · exact ⟨c, cs, by simpa using hc, Or.inr ⟨h1, h2⟩⟩
    · exact ⟨'-', _, rfl, Or.inl (by decide)⟩

/-- The text of a well-formed value starts with a character that is no
white space and closes neither an array nor an object. -/
theorem serialize_head (v : JSON) (hv : v.wf = true) :
    ∃ c cs, serialize v = c :: cs ∧ 33 ≤ c.toNat ∧ c.toNat ≠ 93 ∧ c.toNat ≠ 125 := by
  cases v with
  | null => exact ⟨'n', _, rfl, by decide, by decide, by decide⟩
  | bool b =>
    cases b
    · exact ⟨'f', _, rfl, by decide, by decide, by decide⟩
    · exact ⟨'t', _, rfl, by decide, by decide, by decide⟩
  | num x =>
    simp only [JSON.wf, decide_eq_true_eq] at hv
    obtain ⟨c, cs, hc, h⟩ := numToString_head x hv
    exact ⟨c, cs, by rw [serialize, hc], by omega, by omega, by omega⟩
  | str s => exact ⟨'"', _, rfl, by decide, by decide, by decide⟩
  | arr vs =>
    cases vs with
    | nil => exact ⟨'[', _, rfl, by decide, by decide, by decide⟩
    | cons v vs => exact ⟨'[', _, by rw [serialize], by decide, by decide, by decide⟩
  | obj ms =>
    cases ms with
    | nil => exact ⟨'{', _, rfl, by decide, by decide, by decide⟩
    | cons m ms =>
      obtain ⟨k, v⟩ := m
      exact ⟨'{', _, by rw [serialize], by decide, by decide, by decide⟩

/-- The rest of an array's text starts with a comma or the closing
bracket. -/
theorem serializeElems_delim (vs : List JSON) (rest : List Char) :
    Delim (serializeElems vs ++ rest) := by
  cases vs with
  | nil => exact Or.inr ⟨']', rest, rfl, Or.inr (Or.inl (by decide))⟩
  | cons v vs => exact Or.inr ⟨',', _, by rw [serializeElems]; rfl, Or.inl (by decide)⟩

/-- The rest of an object's text starts with a comma or the closing
brace. -/
theorem serializeMembers_delim (ms : List (String × JSON)) (rest : List Char) :
    Delim (serializeMembers ms ++ rest) := by
  cases ms with
  | nil => exact Or.inr ⟨'}', rest, rfl, Or.inr (Or.inr (by decide))⟩
  | cons m ms =>
    obtain ⟨k, v⟩ := m
    exact Or.inr ⟨',', _, by rw [serializeMembers]; rfl, Or.inl (by decide)⟩

/-- Reading `null` back. -/
theorem parseValue_null (f : Nat) (rest : List Char) :
    parseValue (f + 1) ('n' :: 'u' :: 'l' :: 'l' :: rest) = some (JSON.null, rest) := by
  rw [parseValue, skipWs_cons _ _ (by decide)]
  simp

/-- Reading `true` back. -/
theorem parseValue_true (f : Nat) (rest : List Char) :
    parseValue (f + 1) ('t' :: 'r' :: 'u' :: 'e' :: rest) = some (JSON.bool true, rest) := by
  rw [parseValue, skipWs_cons _ _ (by decide)]
  simp

/-- Reading `false` back. -/
theorem parseValue_false (f : Nat) (rest : List Char) :
    parseValue (f + 1) ('f' :: 'a' :: 'l' :: 's' :: 'e' :: rest) = some (JSON.bool false, rest) := by
  rw [parseValue, skipWs_cons _ _ (by decide)]
  simp

/-- Reading a quoted string back. -/
theorem parseValue_string (f : Nat) (s : String) (rest : List Char) :
    parseValue (f + 1) (quoteString s.data ++ rest) = some (JSON.str s, rest) := by
  unfold quoteString
  rw [List.cons_append, List.append_assoc, parseValue, skipWs_cons _ _ (by decide)]
  simp [parseStringBody_quote]

/-- Reading a number back. -/
theorem parseValue_number (f : Nat) (x : JSNumber) (rest : List Char) (hx : x.WF)
    (hrest : NumEnd rest) :
    parseValue (f + 1) (numToString x ++ rest) = some (JSON.num x, rest) := by
  obtain ⟨c, cs, hc, h⟩ := numToString_head x hx
  have hnum := parseNumber_numToString x rest hx hrest
  rw [hc] at hnum ⊢
  rw [List.cons_append] at hnum ⊢
  rw [parseValue, skipWs_cons _ _ (isWs_false (by omega))]
  simp only []
  rw [if_neg (by omega), if_neg (by omega), if_neg (by omega), if_neg (by omega),
    if_neg (by omega), if_neg (by omega), hnum]

/-- An empty array is read back. -/
theorem parseValue_empty_array (f : Nat) (rest : List Char) :
    parseValue (f + 1) ('[' :: ']' :: rest) = some (JSON.arr [], rest) := by
  rw [parseValue, skipWs_cons _ _ (by decide)]
  simp [skipWs_cons _ _ (show isWs ']' = false by decide)]

/-- An empty object is read back. -/
theorem parseValue_empty_object (f : Nat) (rest : List Char) :
    parseValue (f + 1) ('{' :: '}' :: rest) = some (JSON.obj [], rest) := by
  rw [parseValue, skipWs_cons _ _ (by decide)]
  simp [skipWs_cons _ _ (show isWs '}' = false by decide)]

/-- After an opening bracket that a value follows, the elements are read. -/
theorem parseValue_array (f : Nat) (c1 : Char) (r1 : List Char) (h1 : 33 ≤ c1.toNat)
    (h2 : c1.toNat ≠ 93) :
    parseValue (f + 1) ('[' :: c1 :: r1)
      = match parseElems f (c1 :: r1) with
        | some (vs, r2) => some (JSON.arr vs, r2)
        | none => none := by
  rw [parseValue, skipWs_cons _ _ (by decide)]
  simp [skipWs_cons _ _ (isWs_false h1), h2]

/-- After an opening brace that a key follows, the members are read. -/
theorem parseValue_object (f : Nat) (c1 : Char) (r1 : List Char) (h1 : 33 ≤ c1.toNat)
    (h2 : c1.toNat ≠ 125) :
    parseValue (f + 1) ('{' :: c1 :: r1)
      = match parseMembers f (c1 :: r1) with
        | some (ms, r2) => some (JSON.obj (buildObject ms), r2)
        | none => none := by
  rw [parseValue, skipWs_cons _ _ (by decide)]
  simp [skipWs_cons _ _ (isWs_false h1), h2]

/-- The last element of an array is read up to the closing bracket. -/
theorem parseElems_last (f : Nat) (cs rest : List Char) (v : JSON)
    (h : parseValue f cs = some (v, ']' :: rest)) :
    parseElems (f + 1) cs = some ([v], rest) := by
  rw [parseElems, h]
  simp [skipWs_cons _ _ (show isWs ']' = false by decide)]

/-- An element followed by a comma is read, then the elements after it. -/
theorem parseElems_more (f : Nat) (cs r1 rest : List Char) (v : JSON) (vs : List JSON)
    (h : parseValue f cs = some (v, ',' :: r1)) (h2 : parseElems f r1 = some (vs, rest)) :
    parseElems (f + 1) cs = some (v :: vs, rest) := by
  rw [parseElems, h]
  simp [skipWs_cons _ _ (show isWs ',' = false by decide), h2]

/-- The last member of an object is read up to the closing brace. -/
theorem parseMembers_last (f : Nat) (k : String) (cs rest : List Char) (v : JSON)
    (h : parseValue f cs = some (v, '}' :: rest)) :
    parseMembers (f + 1) (quoteString k.data ++ ':' :: cs) = some ([(k, v)], rest) := by
  unfold quoteString
  rw [List.cons_append, List.append_assoc, parseMembers, skipWs_cons _ _ (by decide)]
  simp [parseStringBody_quote, skipWs_cons _ _ (show isWs ':' = false by decide), h,
    skipWs_cons _ _ (show isWs '}' = false by decide)]

/-- A member followed by a comma is read, then the members after it. -/
theorem parseMembers_more (f : Nat) (k : String) (cs r1 rest : List Char) (v : JSON)
    (ms : List (String × JSON)) (h : parseValue f cs = some (v, ',' :: r1))
    (h2 : parseMembers f r1 = some (ms, rest)) :
    parseMembers (f + 1) (quoteString k.data ++ ':' :: cs) = some ((k, v) :: ms, rest) := by
  unfold quoteString
  rw [List.cons_append, List.append_assoc, parseMembers, skipWs_cons _ _ (by decide)]
  simp [parseStringBody_quote, skipWs_cons _ _ (show isWs ':' = false by decide), h,
    skipWs_cons _ _ (show isWs ',' = false by decide), h2]

/-- Defining a property an object does not have puts it last. -/
theorem setProp_new (k : String) (v : JSON) (acc : List (String × JSON))
    (h : k ∉ acc.map Prod.fst) : setProp k v acc = acc ++ [(k, v)] := by
  induction acc with
  | nil => rfl
  | cons m acc ih =>
    obtain ⟨k1, v1⟩ := m
    simp only [List.map_cons, List.mem_cons, not_or] at h
    have hne : ¬ k1 = k := fun e => h.1 e.symm
    simp [setProp, hne, ih h.2]

/-- Defining members with distinct new keys one after the other appends
them. -/
theorem foldl_setProp (ms acc : List (String × JSON)) (hnd : (ms.map Prod.fst).Nodup)
    (hdis : ∀ k ∈ ms.map Prod.fst, k ∉ acc.map Prod.fst) :
    ms.foldl (fun a m => setProp m.1 m.2 a) acc = acc ++ ms := by
  induction ms generalizing acc with
  | nil => simp
  | cons m ms ih =>
    obtain ⟨k, v⟩ := m
    simp only [List.map_cons, List.nodup_cons] at hnd
    rw [List.foldl_cons, setProp_new k v acc (hdis k (by simp)), ih _ hnd.2]
    · simp
    · intro k1 hk1
      simp only [List.map_append, List.map_cons, List.map_nil, List.mem_append,
        List.mem_singleton, not_or]
      refine ⟨hdis k1 (by simp [hk1]), ?_⟩
      intro e
      rw [e] at hk1
      exact hnd.1 hk1

/-- An object without repeated keys is built as listed. -/
theorem buildObject_nodup (ms : List (String × JSON)) (hnd : (ms.map Prod.fst).Nodup) :
    buildObject ms = ms := by
  unfold buildObject
  rw [foldl_setProp ms [] hnd (by simp)]
  rfl

mutual
/-- The text of a well-formed value is read back, given fuel of twice its
length and a delimiter after it. -/
theorem parseValue_serialize : ∀ (v : JSON), v.wf = true → ∀ (fuel : Nat) (rest : List Char),
    2 * (serialize v).length ≤ fuel → Delim rest →
    parseValue fuel (serialize v ++ rest) = some (v, rest)
  | .null, _, fuel, rest, hf, _ => by
    obtain ⟨f, rfl⟩ : ∃ f, fuel = f + 1 := ⟨fuel - 1, by simp [serialize] at hf; omega⟩
    exact parseValue_null f rest
  | .bool true, _, fuel, rest, hf, _ => by
    obtain ⟨f, rfl⟩ : ∃ f, fuel = f + 1 := ⟨fuel - 1, by simp [serialize] at hf; omega⟩
    exact parseValue_true f rest
  | .bool false, _, fuel, rest, hf, _ => by
    obtain ⟨f, rfl⟩ : ∃ f, fuel = f + 1 := ⟨fuel - 1, by simp [serialize] at hf; omega⟩
    exact parseValue_false f rest
  | .num x, hv, fuel, rest, hf, hd => by
    have hx : x.WF := by simpa [JSON.wf] using hv
    obtain ⟨c, cs, hc, -⟩ := numToString_head x hx
    obtain ⟨f, rfl⟩ : ∃ f, fuel = f + 1 := ⟨fuel - 1, by simp [serialize, hc] at hf; omega⟩
    rw [serialize]
    exact parseValue_number f x rest hx hd.numEnd
  | .str s, _, fuel, rest, hf, _ => by
    obtain ⟨f, rfl⟩ : ∃ f, fuel = f + 1 :=
      ⟨fuel - 1, by simp [serialize, quoteString] at hf; omega⟩
    rw [serialize]
    exact parseValue_string f s rest
  | .arr [], _, fuel, rest, hf, _ => by
    obtain ⟨f, rfl⟩ : ∃ f, fuel = f + 1 := ⟨fuel - 1, by simp [serialize] at hf; omega⟩
    exact parseValue_empty_array f rest
  | .arr (v :: vs), hv, fuel, rest, hf, _ => by
    have hwf : v.wf = true ∧ wfElems vs = true := by
      simpa [JSON.wf, wfElems] using hv
    rw [serialize] at hf ⊢
    simp only [List.length_cons, List.length_append] at hf
    obtain ⟨f, rfl⟩ : ∃ f, fuel = f + 1 := ⟨fuel - 1, by omega⟩
    obtain ⟨c1, r1, hc, h1, h2, -⟩ := serialize_head v hwf.1
    have hel := parseElems_serialize vs hwf.2 v f rest
      (fun f r => parseValue_serialize v hwf.1 f r) (by omega)
    rw [List.cons_append, List.append_assoc]
    rw [hc, List.cons_append] at hel ⊢
    rw [parseValue_array f c1 _ h1 h2, hel]
  | .obj [], _, fuel, rest, hf, _ => by
    obtain ⟨f, rfl⟩ : ∃ f, fuel = f + 1 := ⟨fuel - 1, by simp [serialize] at hf; omega⟩
    exact parseValue_empty_object f rest
  | .obj ((k, v) :: ms), hv, fuel, rest, hf, _ => by
    have hwf : ((k :: ms.map Prod.fst).Nodup) ∧ v.wf = true ∧ wfMembers ms = true := by
      simpa [JSON.wf, wfMembers, and_assoc] using hv
    rw [serialize] at hf ⊢
    simp only [List.length_cons, List.length_append] at hf
    obtain ⟨f, rfl⟩ : ∃ f, fuel = f + 1 := ⟨fuel - 1, by omega⟩
    have hm := parseMembers_serialize ms hwf.2.2 k v f rest
      (fun f r => parseValue_serialize v hwf.2.1 f r) (by omega)
    have hq : quoteString k.data = '"' :: (k.data.flatMap quoteChar ++ ['"']) := rfl
    rw [List.cons_append, List.append_assoc, List.cons_append, List.append_assoc]
    rw [hq, List.cons_append] at hm ⊢
    rw [parseValue_object f '"' _ (by decide) (by decide), hm]
    simp only []
    rw [buildObject_nodup _ (by simpa using hwf.1)]
/-- The elements of an array are read back. -/
theorem parseElems_serialize : ∀ (vs : List JSON), wfElems vs = true →
    ∀ (v : JSON) (fuel : Nat) (rest : List Char),
    (∀ f r, 2 * (serialize v).length ≤ f → Delim r →
      parseValue f (serialize v ++ r) = some (v, r)) →
    2 * ((serialize v).length + (serializeElems vs).length) ≤ fuel →
    parseElems fuel (serialize v ++ (serializeElems vs ++ rest)) = some (v :: vs, rest)
  | [], _, v, fuel, rest, hv, hf => by
    simp only [serializeElems, List.length_singleton] at hf
    obtain ⟨f, rfl⟩ : ∃ f, fuel = f + 1 := ⟨fuel - 1, by omega⟩
    have h := hv f (']' :: rest) (by omega) (Or.inr ⟨']', rest, rfl, Or.inr (Or.inl (by decide))⟩)
    exact parseElems_last f _ rest v h
  | v2 :: vs, hwf, v, fuel, rest, hv, hf => by
    have hwf2 : v2.wf = true ∧ wfElems vs = true := by
      simpa [wfElems] using hwf
    rw [serializeElems] at hf ⊢
    simp only [List.length_cons, List.length_append] at hf
    obtain ⟨f, rfl⟩ : ∃ f, fuel = f + 1 := ⟨fuel - 1, by omega⟩
    have h := hv f (',' :: (serialize v2 ++ (serializeElems vs ++ rest))) (by omega)
      (Or.inr ⟨',', _, rfl, Or.inl (by decide)⟩)
    have h2 := parseElems_serialize vs hwf2.2 v2 f rest
      (fun f r => parseValue_serialize v2 hwf2.1 f r) (by omega)
    rw [List.cons_append, List.append_assoc]
    exact parseElems_more f _ _ rest v (v2 :: vs) h h2
/-- The members of an object are read back. -/
theorem parseMembers_serialize : ∀ (ms : List (String × JSON)), wfMembers ms = true →
    ∀ (k : String) (v : JSON) (fuel : Nat) (rest : List Char),
    (∀ f r, 2 * (serialize v).length ≤ f → Delim r →
      parseValue f (serialize v ++ r) = some (v, r)) →
    2 * ((quoteString k.data).length + 1 + (serialize v).length
      + (serializeMembers ms).length) ≤ fuel →
    parseMembers fuel (quoteString k.data ++ ':' :: (serialize v ++ (serializeMembers ms ++ rest)))
      = some ((k, v) :: ms, rest)
  | [], _, k, v, fuel, rest, hv, hf => by
    simp only [serializeMembers, List.length_singleton] at hf
    obtain ⟨f, rfl⟩ : ∃ f, fuel = f + 1 := ⟨fuel - 1, by omega⟩
    have h := hv f ('}' :: rest) (by omega) (Or.inr ⟨'}', rest, rfl, Or.inr (Or.inr (by decide))⟩)
    exact parseMembers_last f k _ rest v h
  | (k2, v2) :: ms, hwf, k, v, fuel, rest, hv, hf => by
    have hwf2 : v2.wf = true ∧ wfMembers ms = true := by
      simpa [wfMembers] using hwf
    rw [serializeMembers] at hf ⊢
    simp only [List.length_cons, List.length_append] at hf
    obtain ⟨f, rfl⟩ : ∃ f, fuel = f + 1 := ⟨fuel - 1, by omega⟩
    have h := hv f (',' :: (quoteString k2.data ++ ':' ::
        (serialize v2 ++ (serializeMembers ms ++ rest)))) (by omega)
      (Or.inr ⟨',', _, rfl, Or.inl (by decide)⟩)
    have h2 := parseMembers_serialize ms hwf2.2 k2 v2 f rest
      (fun f r => parseValue_serialize v2 hwf2.1 f r) (by omega)
    have hshape : (',' :: (quoteString k2.data ++ ':' :: (serialize v2 ++ serializeMembers ms)))
        ++ rest = ',' :: (quoteString k2.data ++ ':' ::
          (serialize v2 ++ (serializeMembers ms ++ rest))) := by
      simp
    rw [hshape]
    exact parseMembers_more f k _ _ rest v ((k2, v2) :: ms) h h2
end

/-- `JSON.parse` undoes `JSON.stringify` on every well-formed value. -/
theorem parse_stringify (p : JSON) (hp : p.wf = true) : JSON.parse (JSON.stringify p) = .ok p := by
  have h := parseValue_serialize p hp (2 * (serialize p).length + 2) [] (by omega) (Or.inl rfl)
  rw [List.append_nil] at h
  unfold JSON.parse JSON.stringify
  simp only []
  rw [h]
  rfl

/-- C3. Round trip between producer and consumer.  Let `p` be a payload of
the JSON data model (`p.wf`: its numbers are in the normal form every number
has, its objects have no repeated key).  With a channel open, `sendToQueue`
publishes for `p` exactly the bytes `Buffer.from(JSON.stringify(p))`; these
bytes deserialize, by `JSON.parse(content.toString())`, to `p` itself; and
the consume callback, handed a delivery with these bytes, does not reject and
works on `emailData = p`, which is the first thing it logs. -/
theorem producer_consumer_round_trip (p : JSON) (hp : p.wf = true) (st : AdapterState)
    (ch : Channel) (sent : Except LibraryError Unit) (q : String)
    (hch : st.channel = some ch) :
    (sendToQueue st sent q p).effects
      = [Effect.sendToQueue ch q (Buffer.fromString (JSON.stringify p)) true] ∧
    JSON.parse (Buffer.toString (Buffer.fromString (JSON.stringify p))) = .ok p ∧
    ∀ (channel : Channel) (tag : Nat), ∃ rest,
      (onMessage channel (some ⟨tag, Buffer.fromString (JSON.stringify p)⟩)).effects
        = Effect.logValue "Processing email:" p :: rest ∧
      (onMessage channel (some ⟨tag, Buffer.fromString (JSON.stringify p)⟩)).result
        = .ok () := by
  have hparse : JSON.parse (Buffer.toString (Buffer.fromString (JSON.stringify p))) = .ok p := by
    rw [buffer_toString_fromString, parse_stringify p hp]
  refine ⟨by simp [sendToQueue, hch], hparse, ?_⟩
  intro channel tag
  unfold onMessage
  simp only [hparse]
  cases sendEmail p with
  | ok line => exact ⟨_, rfl, rfl⟩
  | error e => exact ⟨_, rfl, rfl⟩

/-- Witness of C3: the notification task of the spec.  The producer
publishes the UTF-8 bytes of its JSON text, these bytes deserialize to the
task, and the worker logs the task, dispatches and acknowledges. -/
theorem producer_consumer_round_trip_witness :
    notifyTask.wf = true ∧
    (sendToQueue ⟨some ⟨1⟩, some ⟨7⟩⟩ (.ok ()) "email_queue" notifyTask).effects
      = [Effect.sendToQueue ⟨7⟩ "email_queue" (Buffer.fromString notifyText) true] ∧
    JSON.parse (Buffer.toString (Buffer.fromString notifyText)) = .ok notifyTask ∧
    (onMessage ⟨7⟩ (some ⟨1, Buffer.fromString notifyText⟩)).effects
      = [.logValue "Processing email:" notifyTask, .log "Email sent to: user@example.com",
         .ack ⟨7⟩ ⟨1, Buffer.fromString notifyText⟩] :=
  ⟨by decide,
    (producer_consumer_round_trip notifyTask (by decide) ⟨some ⟨1⟩, some ⟨7⟩⟩ ⟨7⟩ (.ok ())
      "email_queue" rfl).1,
    (producer_consumer_round_trip notifyTask (by decide) ⟨some ⟨1⟩, some ⟨7⟩⟩ ⟨7⟩ (.ok ())
      "email_queue" rfl).2.1,
    by decide⟩
